import Mathlib

/-!
Verification of the wpp-bot WhatsApp gateway against its natural-language
specification.

The Python sources are shallowly embedded: pure string manipulation is
modelled on `List Char` (Python `str.strip` / `str.replace` / `str.isdigit`
are modelled over ASCII), the spreadsheet-backed booking ledger is modelled
as a threaded `List` of row records (load/save become explicit state
passing), JSON (de)serialisation — which the spec declares out of scope as
glue — is modelled as the identity on structured payloads, and monetary
floats are modelled as exact rationals, with the two concrete IEEE-754
facts the claims depend on (the double nearest to the literal 50.005, and
exact representability of 0.125) supplied as exact rational constants.
-/

set_option maxHeartbeats 1000000

namespace WppBot

/- ===================================================================
   Python string primitives (ASCII model)
   =================================================================== -/

/-- Whitespace characters stripped by Python str.strip (ASCII subset of the
Unicode whitespace class; the repository only ever strips ASCII text). -/
def isPyWS (c : Char) : Bool :=
  c == ' ' || c == '\t' || c == '\n' || c == '\r' || c == Char.ofNat 11 || c == Char.ofNat 12

/-- Embedding of Python str.strip: drop whitespace from both ends. -/
def stripL (l : List Char) : List Char :=
  (l.dropWhile isPyWS).rdropWhile isPyWS

/-- The provider suffix rewritten by the canonicaliser, as a char list. -/
def sWhatsSfx : List Char := "@s.whatsapp.net".toList

/-- The canonical individual-chat suffix. -/
def cUsSfx : List Char := "@c.us".toList

/-- The group-chat suffix. -/
def gUsSfx : List Char := "@g.us".toList

/-- Embedding of Python str.replace for the fixed pattern
"@s.whatsapp.net" -> "@c.us": every non-overlapping occurrence is
replaced, scanning left to right. -/
def replWhats : List Char → List Char
  | [] => []
  | c :: cs =>
    if sWhatsSfx.isPrefixOf (c :: cs) then cUsSfx ++ replWhats (cs.drop 14)
    else c :: replWhats cs
termination_by l => l.length
decreasing_by
  · simp only [List.length_drop, List.length_cons]
    omega
  · simp only [List.length_cons]
    omega

/-- Statement `if raw.startswith("+"): raw = raw[1:]` of _normalize_chat_id. -/
def plusDropped (raw : List Char) : List Char :=
  if raw.head? = some '+' then raw.tail else raw

/-- Statement `if raw.endswith("@s.whatsapp.net"): raw = raw.replace(...)`. -/
def sfxReplaced (raw1 : List Char) : List Char :=
  if sWhatsSfx.isSuffixOf raw1 then replWhats raw1 else raw1

/-- Final statements of _normalize_chat_id: keep a canonical suffix as-is,
else collect digits and append the canonical suffix, else pass through. -/
def canonFinish (raw2 : List Char) : List Char :=
  if cUsSfx.isSuffixOf raw2 || gUsSfx.isSuffixOf raw2 then raw2
  else if (raw2.filter Char.isDigit).isEmpty then raw2
  else raw2.filter Char.isDigit ++ cUsSfx

/-- Embedding of app.py _normalize_chat_id on a present string (the
source's None guard returns ""; Python isdigit is modelled as the ASCII
digits, which is what the repository feeds it). -/
def normalizeChatId (x : List Char) : List Char :=
  if stripL x = [] then []
  else canonFinish (sfxReplaced (plusDropped (stripL x)))

/- ===================================================================
   C7 support lemmas
   =================================================================== -/

theorem dropWhile_eq_self_of_head {p : Char → Bool} {l : List Char}
    (h : ∀ c, l.head? = some c → p c = false) : l.dropWhile p = l := by
  cases l with
  | nil => rfl
  | cons a as => simp [List.dropWhile_cons, h a rfl]

theorem dropWhile_head? {p : Char → Bool} {l : List Char} :
    ∀ c, (l.dropWhile p).head? = some c → p c = false := by
  induction l with
  | nil => intro c hc; simp at hc
  | cons a as IH =>
    intro c hc
    rw [List.dropWhile_cons] at hc
    by_cases hpa : p a
    · rw [if_pos hpa] at hc
      exact IH c hc
    · rw [if_neg hpa] at hc
      simp only [List.head?_cons, Option.some.injEq] at hc
      subst hc
      exact Bool.eq_false_iff.mpr hpa

theorem stripL_eq_self {l : List Char}
    (h1 : ∀ c, l.head? = some c → isPyWS c = false)
    (h2 : ∀ c, l.getLast? = some c → isPyWS c = false) : stripL l = l := by
  unfold stripL
  rw [dropWhile_eq_self_of_head h1]
  rw [List.rdropWhile_eq_self_iff]
  intro hl
  have hg : l.getLast? = some (l.getLast hl) := List.getLast?_eq_getLast l hl
  simp [h2 _ hg]

theorem stripL_eq_self_of_all {l : List Char}
    (h : ∀ c ∈ l, isPyWS c = false) : stripL l = l := by
  refine stripL_eq_self (fun c hc => ?_) (fun c hc => ?_)
  · exact h c (List.mem_of_mem_head? (by simpa using hc))
  · exact h c (List.mem_of_mem_getLast? (by simpa using hc))

theorem stripL_head {l : List Char} :
    ∀ c, (stripL l).head? = some c → isPyWS c = false := by
  intro c hc
  unfold stripL at hc
  obtain ⟨t, ht⟩ := List.rdropWhile_prefix isPyWS (l.dropWhile isPyWS)
  apply dropWhile_head? (l := l) c
  rw [← ht]
  cases hr : (l.dropWhile isPyWS).rdropWhile isPyWS with
  | nil =>
    rw [hr] at hc
    simp at hc
  | cons a as =>
    rw [hr] at hc
    simp only [List.head?_cons] at hc
    simpa using hc

theorem stripL_getLast {l : List Char} :
    ∀ c, (stripL l).getLast? = some c → isPyWS c = false := by
  intro c hc
  unfold stripL at hc
  have hne : (l.dropWhile isPyWS).rdropWhile isPyWS ≠ [] := by
    intro h0
    rw [h0] at hc
    simp at hc
  have hlast := List.rdropWhile_last_not isPyWS (l.dropWhile isPyWS) hne
  have hc' : ((l.dropWhile isPyWS).rdropWhile isPyWS).getLast hne = c := by
    have hg := List.getLast?_eq_getLast ((l.dropWhile isPyWS).rdropWhile isPyWS) hne
    rw [hc] at hg
    exact (Option.some_injective _ hg.symm)
  rw [hc'] at hlast
  simpa using hlast

theorem stripL_idem (l : List Char) : stripL (stripL l) = stripL l :=
  stripL_eq_self (fun c hc => stripL_head c hc) (fun c hc => stripL_getLast c hc)

theorem sfx_no_border :
    ∀ k, k < 15 → 0 < k → sWhatsSfx.take (15 - k) ≠ sWhatsSfx.drop k := by
  decide

/-- Replacing "@s.whatsapp.net" with "@c.us" in a string ending in the
former yields a string ending in the latter (the pattern has no
self-overlap, so its terminal occurrence is always rewritten). -/
theorem replWhats_suffix_cus (N : ℕ) :
    ∀ s : List Char, s.length ≤ N → sWhatsSfx <:+ s → cUsSfx <:+ replWhats s := by
  induction N with
  | zero =>
    intro s hlen h
    have hs : s = [] := List.length_eq_zero.mp (Nat.le_zero.mp hlen)
    subst hs
    have : sWhatsSfx = [] := List.suffix_nil.mp h
    exact absurd this (by decide)
  | succ N IH =>
    intro s hlen h
    match s with
    | [] =>
      have : sWhatsSfx = [] := List.suffix_nil.mp h
      exact absurd this (by decide)
    | c :: cs =>
      have hlen' : cs.length ≤ N := by simpa using hlen
      rw [replWhats]
      by_cases hp : sWhatsSfx.isPrefixOf (c :: cs)
      · rw [if_pos hp]
        have hpre : sWhatsSfx <+: c :: cs := List.isPrefixOf_iff_prefix.mp hp
        obtain ⟨rest, hrest⟩ := hpre
        have hlen15 : sWhatsSfx.length = 15 := by decide
        have hdrop : (sWhatsSfx ++ rest).drop 15 = rest := by
          rw [List.drop_append_eq_append_drop]
          have e1 : sWhatsSfx.drop 15 = [] := by decide
          rw [e1, hlen15]
          simp
        have hrest14 : cs.drop 14 = rest := by
          have h15 : (c :: cs).drop 15 = rest := by rw [← hrest]; exact hdrop
          simpa using h15
        have hlenrest : 15 + rest.length = cs.length + 1 := by
          have hcg := congrArg List.length hrest
          simp only [List.length_append, hlen15, List.length_cons] at hcg
          exact hcg
        rw [hrest14]
        rcases eq_or_ne rest ([] : List Char) with hrnil | hrne
        · subst hrnil
          rw [replWhats]
          simp
        · have hsfxrest : sWhatsSfx <:+ rest := by
            rw [← hrest] at h
            obtain ⟨u, hu⟩ := h
            have hulen : u.length = rest.length := by
              have hcg := congrArg List.length hu
              simp only [List.length_append, hlen15] at hcg
              omega
            by_cases hk : 15 ≤ rest.length
            · have h1 : (u ++ sWhatsSfx).drop u.length = sWhatsSfx := by
                simp
              have h2 : (sWhatsSfx ++ rest).drop u.length =
                  rest.drop (u.length - 15) := by
                rw [List.drop_append_eq_append_drop, hlen15]
                rw [List.drop_eq_nil_of_le (by omega)]
                simp
              rw [hu] at h1
              rw [h1] at h2
              rw [h2]
              exact List.drop_suffix _ _
            · exfalso
              have hkpos : 0 < rest.length := List.length_pos.mpr hrne
              have hkle : u.length ≤ 15 := by omega
              have h1 : (u ++ sWhatsSfx).take u.length = u := List.take_left u _
              have h2 : (sWhatsSfx ++ rest).take u.length =
                  sWhatsSfx.take u.length := by
                rw [List.take_append_eq_append_take, hlen15, hulen]
                have hz : rest.length - 15 = 0 := by omega
                rw [hz]
                simp
              rw [hu] at h1
              rw [h1] at h2
              -- h2 : u = take u.length sWhatsSfx
              have h3 : sWhatsSfx.take u.length ++ sWhatsSfx = sWhatsSfx ++ rest := by
                conv_lhs => rw [← h2]
                exact hu
              have h4 : sWhatsSfx = sWhatsSfx.drop u.length ++ rest := by
                have h5 := congrArg (List.drop u.length) h3
                simp only at h5
                rw [List.drop_append_eq_append_drop, List.drop_append_eq_append_drop] at h5
                have e2 : (sWhatsSfx.take u.length).length = u.length := by
                  rw [List.length_take, hlen15]
                  omega
                have e1 : (sWhatsSfx.take u.length).drop u.length = [] :=
                  List.drop_eq_nil_of_le (le_of_eq e2)
                rw [e1, e2, Nat.sub_self, hlen15] at h5
                have e3 : u.length - 15 = 0 := by omega
                rw [e3] at h5
                simpa using h5
              have h5 : sWhatsSfx.take (15 - u.length) = sWhatsSfx.drop u.length := by
                have hlend : (sWhatsSfx.drop u.length).length = 15 - u.length := by
                  simp [hlen15]
                calc sWhatsSfx.take (15 - u.length)
                    = (sWhatsSfx.drop u.length ++ rest).take (15 - u.length) := by
                      rw [← h4]
                  _ = sWhatsSfx.drop u.length := List.take_left' hlend
              exact sfx_no_border u.length (by omega) (by omega) h5
          have hres := IH rest (by omega) hsfxrest
          exact hres.trans ( List.suffix_append cUsSfx _)
      · rw [if_neg hp]
        rcases List.suffix_cons_iff.mp h with heq | hsfx
        · exfalso
          apply hp
          rw [← heq]
          exact List.isPrefixOf_iff_prefix.mpr (List.prefix_refl _)
        · have hres := IH cs hlen' hsfx
          exact hres.trans ( List.suffix_cons c _)

theorem suffix_getLast?_eq {l₁ l₂ : List Char} (h : l₁ <:+ l₂) (hne : l₁ ≠ []) :
    l₂.getLast? = l₁.getLast? := by
  obtain ⟨t, rfl⟩ := h
  exact List.getLast?_append_of_ne_nil t hne

theorem not_sWhats_suffix_of_cUs {y : List Char} (h : cUsSfx <:+ y) :
    sWhatsSfx.isSuffixOf y = false := by
  rw [Bool.eq_false_iff]
  intro hs
  have hs' : sWhatsSfx <:+ y := List.isSuffixOf_iff_suffix.mp hs
  have h1 : y.getLast? = cUsSfx.getLast? := suffix_getLast?_eq h (by decide)
  have h2 : y.getLast? = sWhatsSfx.getLast? := suffix_getLast?_eq hs' (by decide)
  rw [h1] at h2
  exact absurd h2 (by decide)

theorem isPyWS_false_of_isDigit {c : Char} (h : c.isDigit = true) :
    isPyWS c = false := by
  rw [Bool.eq_false_iff]
  intro hws
  simp only [isPyWS, Bool.or_eq_true, beq_iff_eq] at hws
  rcases hws with ((((h1 | h1) | h1) | h1) | h1) | h1 <;> subst h1 <;> simp_all

theorem head_ne_plus_of_isDigit {c : Char} (h : c.isDigit = true) : c ≠ '+' := by
  intro hc
  subst hc
  simp_all

/-- Any list that already ends in the canonical chat suffix satisfies the
final branch test of the canonicaliser. -/
theorem canonFinish_of_cUs {y : List Char} (h : cUsSfx <:+ y) : canonFinish y = y := by
  unfold canonFinish
  have hb : (cUsSfx.isSuffixOf y || gUsSfx.isSuffixOf y) = true := by
    rw [List.isSuffixOf_iff_suffix.mpr h]
    simp
  rw [if_pos hb]

/-- The canonicaliser maps a string that already is a fixed-point shape —
ends in a canonical suffix, stripped, not plus-led, not provider-suffixed —
to itself. -/
theorem normalize_fix_of_suffix {y : List Char}
    (h0 : stripL y = y) (h1 : y ≠ []) (h2 : y.head? ≠ some '+')
    (h3 : sWhatsSfx.isSuffixOf y = false)
    (h4 : cUsSfx <:+ y) :
    normalizeChatId y = y := by
  unfold normalizeChatId
  rw [h0, if_neg h1]
  unfold plusDropped
  rw [if_neg h2]
  unfold sfxReplaced
  rw [h3]
  simp only [Bool.false_eq_true, if_false]
  exact canonFinish_of_cUs h4

/-- The canonicaliser passes through a stripped, not plus-led string with
no recognised suffix and no digits. -/
theorem normalize_fix_pass {y : List Char}
    (h0 : stripL y = y) (h1 : y ≠ []) (h2 : y.head? ≠ some '+')
    (h3 : sWhatsSfx.isSuffixOf y = false)
    (h4 : (cUsSfx.isSuffixOf y || gUsSfx.isSuffixOf y) = false)
    (h5 : (y.filter Char.isDigit).isEmpty = true) :
    normalizeChatId y = y := by
  unfold normalizeChatId
  rw [h0, if_neg h1]
  unfold plusDropped
  rw [if_neg h2]
  unfold sfxReplaced
  rw [h3]
  simp only [Bool.false_eq_true, if_false]
  unfold canonFinish
  rw [h4]
  simp only [Bool.false_eq_true, if_false]
  rw [if_pos h5]

theorem replWhats_head {a : Char} {t : List Char} :
    (replWhats (a :: t)).head? = some '@' ∨ (replWhats (a :: t)).head? = some a := by
  rw [replWhats]
  by_cases hp : sWhatsSfx.isPrefixOf (a :: t)
  · rw [if_pos hp]
    left
    rfl
  · rw [if_neg hp]
    right
    rfl

/- ===================================================================
   C7: canonicaliser idempotence
   =================================================================== -/

/-- C7 counterexample: the claim that the identifier canonicaliser is
idempotent for every input string fails at the concrete input "++":
one application yields "+", a second application yields "". -/
theorem normalizeChatId_not_idem_plusplus :
    normalizeChatId (normalizeChatId ("++".toList)) ≠ normalizeChatId ("++".toList) := by
  decide

/-- C7 (amended): the canonicaliser is idempotent on every input whose
whitespace-trimmed form does not begin with a plus sign; the counterexample
"++" shows the unconditional claim false, and the failing inputs are
exactly of that excluded shape. -/
theorem normalizeChatId_idem_of_not_plus (x : List Char)
    (hx : (stripL x).head? ≠ some '+') :
    normalizeChatId (normalizeChatId x) = normalizeChatId x := by
  by_cases hnil : stripL x = []
  · have h1 : normalizeChatId x = [] := by
      unfold normalizeChatId
      rw [if_pos hnil]
    rw [h1]
    decide
  · have hfix : stripL (stripL x) = stripL x := stripL_idem x
    have hval0 : normalizeChatId x = canonFinish (sfxReplaced (stripL x)) := by
      unfold normalizeChatId
      rw [if_neg hnil]
      unfold plusDropped
      rw [if_neg hx]
    by_cases hs : sWhatsSfx.isSuffixOf (stripL x) = true
    · -- suffix-replacement branch: the result ends in "@c.us"
      have hy : sfxReplaced (stripL x) = replWhats (stripL x) := by
        unfold sfxReplaced
        rw [if_pos hs]
      set y := replWhats (stripL x) with hydef
      have hcy : cUsSfx <:+ y := by
        apply replWhats_suffix_cus (stripL x).length _ (le_refl _)
        exact List.isSuffixOf_iff_suffix.mp hs
      have hyne : y ≠ [] := by
        intro h0
        rw [h0] at hcy
        exact absurd (List.suffix_nil.mp hcy) (by decide)
      have hval : normalizeChatId x = y := by
        rw [hval0, hy]
        exact canonFinish_of_cUs hcy
      have hyhead : ∀ c, y.head? = some c → isPyWS c = false ∧ c ≠ '+' := by
        intro c hcp
        cases hsx : stripL x with
        | nil => exact absurd hsx hnil
        | cons a as =>
          rw [hydef, hsx] at hcp
          rcases replWhats_head (a := a) (t := as) with hh | hh
          · rw [hh] at hcp
            have hca : c = '@' := by
              exact (Option.some_injective _ hcp.symm)
            subst hca
            exact ⟨by decide, by decide⟩
          · rw [hh] at hcp
            have hca : c = a := (Option.some_injective _ hcp.symm)
            subst hca
            have hc' : (stripL x).head? = some c := by
              rw [hsx]
              rfl
            exact ⟨stripL_head c hc', fun hplus => hx (by rw [hc', hplus])⟩
      have hylast : ∀ c, y.getLast? = some c → isPyWS c = false := by
        intro c hcp
        have hge := suffix_getLast?_eq hcy (by decide)
        rw [hge] at hcp
        have hcs : c = 's' := by
          have hl : cUsSfx.getLast? = some 's' := by decide
          rw [hl] at hcp
          exact (Option.some_injective _ hcp.symm)
        subst hcs
        decide
      have hstr : stripL y = y :=
        stripL_eq_self (fun c hc => (hyhead c hc).1) hylast
      have hplus : y.head? ≠ some '+' := by
        intro h0
        exact (hyhead '+' h0).2 rfl
      rw [hval]
      exact normalize_fix_of_suffix hstr hyne hplus (not_sWhats_suffix_of_cUs hcy) hcy
    · -- no provider suffix: raw2 is the stripped input itself
      have hs' : sWhatsSfx.isSuffixOf (stripL x) = false := Bool.eq_false_iff.mpr hs
      have hy : sfxReplaced (stripL x) = stripL x := by
        unfold sfxReplaced
        rw [hs']
        simp only [Bool.false_eq_true, if_false]
      rw [hval0, hy]
      by_cases hc : (cUsSfx.isSuffixOf (stripL x) || gUsSfx.isSuffixOf (stripL x)) = true
      · have hval : canonFinish (stripL x) = stripL x := by
          unfold canonFinish
          rw [if_pos hc]
        rw [hval]
        unfold normalizeChatId
        rw [hfix, if_neg hnil]
        unfold plusDropped
        rw [if_neg hx]
        unfold sfxReplaced
        rw [hs']
        simp only [Bool.false_eq_true, if_false]
        exact hval
      · have hc' : (cUsSfx.isSuffixOf (stripL x) || gUsSfx.isSuffixOf (stripL x)) = false :=
          Bool.eq_false_iff.mpr hc
        by_cases hd : ((stripL x).filter Char.isDigit).isEmpty = true
        · have hval : canonFinish (stripL x) = stripL x := by
            unfold canonFinish
            rw [hc']
            simp only [Bool.false_eq_true, if_false]
            rw [if_pos hd]
          rw [hval]
          exact normalize_fix_pass hfix hnil hx hs' hc' hd
        · -- digit branch: the result is digits ++ "@c.us"
          set ds := (stripL x).filter Char.isDigit with hds
          have hd' : ds.isEmpty = false := Bool.eq_false_iff.mpr hd
          have hdne : ds ≠ [] := by
            intro h0
            rw [h0] at hd'
            simp at hd'
          have hval : canonFinish (stripL x) = ds ++ cUsSfx := by
            unfold canonFinish
            rw [hc']
            simp only [Bool.false_eq_true, if_false]
            rw [← hds, hd']
            simp only [Bool.false_eq_true, if_false]
          rw [hval]
          have hall : ∀ c ∈ ds ++ cUsSfx, isPyWS c = false := by
            intro c hcmem
            rcases List.mem_append.mp hcmem with hin | hin
            · have hdig : c.isDigit = true := (List.mem_filter.mp (hds ▸ hin)).2
              exact isPyWS_false_of_isDigit hdig
            · fin_cases hin <;> decide
          have hyne : ds ++ cUsSfx ≠ [] := by
            intro h0
            rw [List.append_eq_nil] at h0
            exact absurd h0.2 (by decide)
          have hcy : cUsSfx <:+ ds ++ cUsSfx := List.suffix_append _ _
          have hplus : (ds ++ cUsSfx).head? ≠ some '+' := by
            intro h0
            cases hdsc : ds with
            | nil => exact hdne hdsc
            | cons a as =>
              rw [hdsc] at h0
              simp only [List.cons_append, List.head?_cons, Option.some.injEq] at h0
              have ha : a.isDigit = true := by
                have hmem : a ∈ ds := by
                  rw [hdsc]
                  exact List.mem_cons_self a as
                exact (List.mem_filter.mp (hds ▸ hmem)).2
              exact head_ne_plus_of_isDigit ha h0
          exact normalize_fix_of_suffix (stripL_eq_self_of_all hall) hyne hplus
            (not_sWhats_suffix_of_cUs hcy) hcy

/-- C7 witness: the amended idempotence theorem applied at the concrete
input "55 99" (whose trimmed form does not start with a plus sign). -/
theorem normalizeChatId_idem_witness :
    (stripL ("55 99".toList)).head? ≠ some '+' ∧
      normalizeChatId (normalizeChatId ("55 99".toList)) =
        normalizeChatId ("55 99".toList) :=
  ⟨by decide, normalizeChatId_idem_of_not_plus _ (by decide)⟩

/- ===================================================================
   Calendar / datetime model (Python datetime, Gregorian, years 1..9999)
   =================================================================== -/

/-- A Python datetime.date value. -/
structure DateD where
  year : Nat
  month : Nat
  day : Nat
deriving DecidableEq

/-- A Python datetime.datetime value (microseconds are never used by the
repository's timestamps, which it formats to whole seconds). -/
structure DT where
  year : Nat
  month : Nat
  day : Nat
  hour : Nat
  minute : Nat
  second : Nat
deriving DecidableEq

/-- Python datetime comparison: field-lexicographic, which coincides with
chronological order on valid dates. -/
def dtLt (a b : DT) : Bool :=
  decide (a.year < b.year ∨ (a.year = b.year ∧ (a.month < b.month ∨ (a.month = b.month ∧
    (a.day < b.day ∨ (a.day = b.day ∧ (a.hour < b.hour ∨ (a.hour = b.hour ∧
      (a.minute < b.minute ∨ (a.minute = b.minute ∧ a.second < b.second))))))))))

def isLeap (y : Nat) : Bool :=
  (y % 4 == 0 && y % 100 != 0) || y % 400 == 0

def daysInMonth (y m : Nat) : Nat :=
  if m == 2 then (if isLeap y then 29 else 28)
  else if m == 4 || m == 6 || m == 9 || m == 11 then 30
  else 31

/-- Days since the civil epoch 0000-03-01 (Gregorian), for years ≥ 1. -/
def daysFromCivil (y m d : Nat) : Nat :=
  let y1 := if m ≤ 2 then y - 1 else y
  let era := y1 / 400
  let yoe := y1 % 400
  let mp := if m > 2 then m - 3 else m + 9
  let doy := (153 * mp + 2) / 5 + d - 1
  let doe := yoe * 365 + yoe / 4 - yoe / 100 + doy
  era * 146097 + doe

/-- Inverse of daysFromCivil. -/
def civilFromDays (z : Nat) : Nat × Nat × Nat :=
  let era := z / 146097
  let doe := z % 146097
  let yoe := (doe - doe / 1460 + doe / 36524 - doe / 146096) / 365
  let y1 := yoe + era * 400
  let doy := doe - (365 * yoe + yoe / 4 - yoe / 100)
  let mp := (5 * doy + 2) / 153
  let d := doy - (153 * mp + 2) / 5 + 1
  let m := if mp < 10 then mp + 3 else mp - 9
  (if m ≤ 2 then y1 + 1 else y1, m, d)

def dtToSecs (t : DT) : Nat :=
  daysFromCivil t.year t.month t.day * 86400 + t.hour * 3600 + t.minute * 60 + t.second

def dtFromSecs (n : Nat) : DT :=
  let c := civilFromDays (n / 86400)
  let r := n % 86400
  ⟨c.1, c.2.1, c.2.2, r / 3600, r % 3600 / 60, r % 60⟩

/-- Python `t + timedelta(minutes=k)` (with full carry normalisation). -/
def addMinutes (t : DT) (k : Nat) : DT :=
  dtFromSecs (dtToSecs t + k * 60)

def pad2 (n : Nat) : String :=
  if n < 10 then "0" ++ toString n else toString n

def pad4 (n : Nat) : String :=
  if n < 10 then "000" ++ toString n
  else if n < 100 then "00" ++ toString n
  else if n < 1000 then "0" ++ toString n
  else toString n

/-- Embedding of agenda.py _fmt_ts: strftime with format DD/MM/YYYY HH:MM:SS. -/
def fmtTs (t : DT) : String :=
  pad2 t.day ++ "/" ++ pad2 t.month ++ "/" ++ pad4 t.year ++ " " ++
    pad2 t.hour ++ ":" ++ pad2 t.minute ++ ":" ++ pad2 t.second

/-- Read up to maxLen leading digits as a number (strptime numeric field). -/
def readNum (maxLen : Nat) (l : List Char) : Option (Nat × List Char) :=
  let ds := (l.takeWhile Char.isDigit).take maxLen
  if ds.isEmpty then none
  else some (ds.foldl (fun acc c => acc * 10 + (c.toNat - 48)) 0, l.drop ds.length)

def expectChar (c : Char) (l : List Char) : Option (List Char) :=
  match l with
  | x :: rest => if x = c then some rest else none
  | [] => none

def validDT (y m d hh mi ss : Nat) : Bool :=
  decide (1 ≤ y ∧ y ≤ 9999 ∧ 1 ≤ m ∧ m ≤ 12 ∧ 1 ≤ d ∧ d ≤ daysInMonth y m ∧
    hh ≤ 23 ∧ mi ≤ 59 ∧ ss ≤ 59)

/-- Embedding of agenda.py _parse_ts: strptime with format
DD/MM/YYYY HH:MM:SS, returning none (the caught ValueError) on any
mismatch or invalid calendar values. -/
def parseTs (s : String) : Option DT := do
  let p1 ← readNum 2 s.toList
  let r2 ← expectChar '/' p1.2
  let p2 ← readNum 2 r2
  let r4 ← expectChar '/' p2.2
  let p3 ← readNum 4 r4
  let r6 ← expectChar ' ' p3.2
  let p4 ← readNum 2 r6
  let r8 ← expectChar ':' p4.2
  let p5 ← readNum 2 r8
  let r10 ← expectChar ':' p5.2
  let p6 ← readNum 2 r10
  if p6.2 = [] ∧ validDT p3.1 p2.1 p1.1 p4.1 p5.1 p6.1 = true then
    some ⟨p3.1, p2.1, p1.1, p4.1, p5.1, p6.1⟩
  else none

/- ===================================================================
   Booking ledger model (scripts_empresas/empresa1/agenda.py)

   The spreadsheet is modelled as a list of row records threaded through
   every operation: carregar_agendamentos reads the threaded value and
   salvar_agendamentos replaces it (the timestamped backup copy written by
   salvar does not affect the main table and is not modelled).  The
   ItensJSON column holds json.dumps of the item list; JSON serialisation
   is out-of-scope glue, so the row stores the item list itself.  Floats
   are embedded as exact rationals.
   =================================================================== -/

/-- One line item dict: {title, quantity, unit_price}. -/
structure Item where
  title : String
  quantity : Int
  unitPrice : ℚ
deriving DecidableEq

/-- CPython round(x, 2) on a float: the correctly-rounded 2-decimal value
of the exact (binary) value of x, ties to even. -/
def pyRound2 (q : ℚ) : ℚ :=
  let n : Int := Int.floor (q * 100)
  let r : ℚ := q * 100 - n
  if r < 1/2 then (n : ℚ) / 100
  else if (1:ℚ)/2 < r then ((n : ℚ) + 1) / 100
  else if Even n then (n : ℚ) / 100 else ((n : ℚ) + 1) / 100

/-- Embedding of agenda.py _sum_itens_total (and services/pagamentos.py
_sum_total, which is textually identical): round(sum(unit_price *
quantity), 2). -/
def sumItensTotal (itens : List Item) : ℚ :=
  pyRound2 ((itens.map (fun i => i.unitPrice * (i.quantity : ℚ))).sum)

/-- One row of agendamentos_empresa1.xlsx. -/
structure RowE where
  agendamentoID : String
  nome : String
  dataD : DateD
  horario : String
  servico : String
  insta : String
  status : String
  agendadoEm : String
  expiraEm : String
  chatID : String
  itens : List Item
  total : ℚ
deriving DecidableEq

/-- The persisted spreadsheet state. -/
abbrev Ledger := List RowE

def asciiLowerC (c : Char) : Char :=
  if 'A' ≤ c ∧ c ≤ 'Z' then Char.ofNat (c.toNat + 32) else c

def asciiUpperC (c : Char) : Char :=
  if 'a' ≤ c ∧ c ≤ 'z' then Char.ofNat (c.toNat - 32) else c

def pyLowerS (s : String) : String := String.mk (s.toList.map asciiLowerC)

def pyStripS (s : String) : String := String.mk (stripL s.toList)

/-- Python str.title (ASCII model): uppercase any letter following a
non-letter, lowercase other letters. -/
def pyTitleGo : Bool → List Char → List Char
  | _, [] => []
  | prevAlpha, c :: cs =>
    (if c.isAlpha then (if prevAlpha then asciiLowerC c else asciiUpperC c) else c)
      :: pyTitleGo c.isAlpha cs

def pyTitleS (s : String) : String := String.mk (pyTitleGo false s.toList)

/-- The status test of limpar_expirados: str(status).strip().lower() ==
"pendente". -/
def isPendenteStatus (s : String) : Bool :=
  pyLowerS (pyStripS s) == "pendente"

/-- The Expira_em read of limpar_expirados: empty cell means no expiry. -/
def parseExpira (r : RowE) : Option DT :=
  if r.expiraEm == "" then none else parseTs r.expiraEm

/-- The per-row body of the limpar_expirados loop. -/
def expireStep (now : DT) (r : RowE) : RowE :=
  if isPendenteStatus r.status then
    match parseExpira r with
    | some e => if dtLt e now then { r with status := "Expirado" } else r
    | none => r
  else r

/-- Embedding of agenda.py limpar_expirados: sweep every row; the source
saves the frame back only when a row changed, and saving an unchanged
frame is the identity here. -/
def limparExpirados (now : DT) (df : Ledger) : Ledger :=
  df.map (expireStep now)

/-- The occupancy condition of horario_disponivel / listar_blocos:
same date, same slot, status Pendente or Confirmado. -/
def isBlocking (dataq : DateD) (horario : String) (r : RowE) : Bool :=
  r.dataD == dataq && r.horario == horario &&
    (r.status == "Pendente" || r.status == "Confirmado")

/-- Embedding of agenda.py horario_disponivel: run the lazy expiry sweep
(which persists), reload, and test the occupancy condition.  Returns the
persisted state together with the availability answer. -/
def horarioDisponivel (now : DT) (disk : Ledger) (horario : String) (dataq : DateD) :
    Ledger × Bool :=
  let disk1 := limparExpirados now disk
  (disk1, !(disk1.any (isBlocking dataq horario)))

/-- The new Pendente row built by reservar_pendente. -/
def mkNovoRow (now : DT) (id nome horario servicoLabel : String) (dataq : DateD)
    (insta chatId : String) (itens : List Item) (total : Option ℚ) (ttl : Nat) : RowE :=
  { agendamentoID := id
    nome := pyTitleS (pyStripS (if nome == "" then "Cliente" else nome))
    dataD := dataq
    horario := horario
    servico := pyStripS servicoLabel
    insta := insta
    status := "Pendente"
    agendadoEm := fmtTs now
    expiraEm := fmtTs (addMinutes now ttl)
    chatID := chatId
    itens := itens
    total := match total with
      | some t => t
      | none => if itens.isEmpty then 0 else sumItensTotal itens }

/-- Embedding of agenda.py reservar_pendente.  NOTE the threading, taken
from the source: the local df is loaded BEFORE horario_disponivel runs its
expiry sweep and persists the swept frame; on success the function appends
the new row to that stale pre-sweep df and saves it, overwriting the
sweep. -/
def reservarPendente (now : DT) (disk : Ledger) (id nome horario servicoLabel : String)
    (dataq : DateD) (insta chatId : String) (itens : List Item) (total : Option ℚ)
    (ttl : Nat) : Ledger × Bool :=
  let df := disk
  let hd := horarioDisponivel now disk horario dataq
  if !hd.2 then (hd.1, false)
  else (df ++ [mkNovoRow now id nome horario servicoLabel dataq insta chatId itens total ttl],
        true)

/-- The row test of confirmar_pagamento. -/
def isPendingWithId (id : String) (r : RowE) : Bool :=
  r.agendamentoID == id && r.status == "Pendente"

def hasPendingId (disk : Ledger) (id : String) : Bool :=
  disk.any (isPendingWithId id)

/-- Embedding of agenda.py confirmar_pagamento: set every Pendente row
with the given id to Confirmado and return True; otherwise change nothing
and return False. -/
def confirmarPagamento (disk : Ledger) (id : String) : Ledger × Bool :=
  if hasPendingId disk id then
    (disk.map (fun r => if isPendingWithId id r then { r with status := "Confirmado" } else r),
     true)
  else (disk, false)

/- ===================================================================
   C2: confirmation idempotence
   =================================================================== -/

/-- The row map applied by a successful confirmar_pagamento. -/
def confirmMap (disk : Ledger) (id : String) : Ledger :=
  disk.map (fun r => if isPendingWithId id r then { r with status := "Confirmado" } else r)

theorem confirmar_eq_pos {disk : Ledger} {id : String} (h : hasPendingId disk id = true) :
    confirmarPagamento disk id = (confirmMap disk id, true) := by
  rw [confirmarPagamento, h, confirmMap]
  simp

theorem confirmar_eq_neg {disk : Ledger} {id : String} (h : hasPendingId disk id = false) :
    confirmarPagamento disk id = (disk, false) := by
  rw [confirmarPagamento, h]
  simp

theorem confirm_map_no_pending (disk : Ledger) (id : String) :
    hasPendingId (confirmMap disk id) id = false := by
  rw [hasPendingId, confirmMap, List.any_map, List.any_eq_false]
  intro r _
  by_cases h : isPendingWithId id r
  · simp only [Function.comp_apply, if_pos h]
    simp [isPendingWithId]
  · simp only [Function.comp_apply, if_neg h]
    exact h

/-- Second calls of confirmar_pagamento are no-ops on any ledger. -/
theorem confirmar_second_noop (disk : Ledger) (id : String) :
    confirmarPagamento (confirmarPagamento disk id).1 id =
      ((confirmarPagamento disk id).1, false) := by
  by_cases h : hasPendingId disk id = true
  · rw [confirmar_eq_pos h]
    exact confirmar_eq_neg (confirm_map_no_pending disk id)
  · have h0 : hasPendingId disk id = false := Bool.eq_false_iff.mpr h
    rw [confirmar_eq_neg h0]
    exact confirmar_eq_neg h0

/-- C2: confirm is idempotent.  If some reservation with the given id is
currently Pendente, confirmar_pagamento marks it Confirmado (touching no
other field and no other row) and returns True, after which no Pendente
row with that id remains; if none is, it returns False and leaves the
ledger unchanged; consequently a second call with the same id always
returns False and changes nothing, so two calls on the same id record
exactly one transition. -/
theorem confirmar_pagamento_idempotent (disk : Ledger) (id : String) :
    (hasPendingId disk id = false → confirmarPagamento disk id = (disk, false)) ∧
    (hasPendingId disk id = true →
      (confirmarPagamento disk id).2 = true ∧
      (confirmarPagamento disk id).1 = confirmMap disk id ∧
      hasPendingId (confirmarPagamento disk id).1 id = false) ∧
    confirmarPagamento (confirmarPagamento disk id).1 id =
      ((confirmarPagamento disk id).1, false) := by
  refine ⟨fun h => confirmar_eq_neg h, fun h => ?_, confirmar_second_noop disk id⟩
  rw [confirmar_eq_pos h]
  exact ⟨rfl, rfl, confirm_map_no_pending disk id⟩

/-- A concrete Pendente row used by witnesses. -/
def rowPend1 : RowE :=
  { agendamentoID := "AG-1", nome := "Ana", dataD := ⟨2024, 6, 12⟩,
    horario := "08:00", servico := "Corte", insta := "", status := "Pendente",
    agendadoEm := "", expiraEm := "12/06/2024 09:04:00", chatID := "c",
    itens := [], total := 0 }

/-- A concrete Confirmado row used by witnesses. -/
def rowConf2 : RowE :=
  { agendamentoID := "AG-2", nome := "Bia", dataD := ⟨2024, 6, 12⟩,
    horario := "09:00", servico := "Corte", insta := "", status := "Confirmado",
    agendadoEm := "", expiraEm := "", chatID := "c", itens := [], total := 0 }

/-- C2 witness: confirmation idempotence evaluated on a concrete
one-row ledger holding the Pendente reservation AG-1. -/
theorem confirmar_pagamento_idempotent_witness :
    hasPendingId [rowPend1] "AG-1" = true ∧
      (confirmarPagamento [rowPend1] "AG-1").2 = true :=
  ⟨by decide, ((confirmar_pagamento_idempotent [rowPend1] "AG-1").2.1 (by decide)).1⟩

/- ===================================================================
   C8: expireStale is frame-bounded
   =================================================================== -/

/-- C8: limpar_expirados changes exactly the rows whose status reads as
Pendente and whose Expira_em parses to a time strictly before now — those
get status Expirado and keep every other field — and returns every other
row (Confirmado, Cancelado, already Expirado, future or unparsable
expiry) unchanged; the number and order of rows is preserved. -/
theorem limpar_expirados_frame (now : DT) (df : Ledger) :
    (limparExpirados now df).length = df.length ∧
    ∀ (i : Nat) (r : RowE), df[i]? = some r →
      ((isPendenteStatus r.status = true ∧ ∃ e, parseExpira r = some e ∧ dtLt e now = true) →
        (limparExpirados now df)[i]? = some { r with status := "Expirado" }) ∧
      (¬ (isPendenteStatus r.status = true ∧ ∃ e, parseExpira r = some e ∧ dtLt e now = true) →
        (limparExpirados now df)[i]? = some r) := by
  constructor
  · simp [limparExpirados]
  · intro i r hr
    have hmap : (limparExpirados now df)[i]? = some (expireStep now r) := by
      rw [limparExpirados, List.getElem?_map, hr]
      rfl
    constructor
    · rintro ⟨hp, e, he, hlt⟩
      rw [hmap, expireStep, if_pos hp, he]
      simp [hlt]
    · intro hneg
      rw [hmap, expireStep]
      by_cases hp : isPendenteStatus r.status = true
      · rw [if_pos hp]
        cases he : parseExpira r with
        | none => simp
        | some e =>
          have hlt : dtLt e now = false := by
            rw [Bool.eq_false_iff]
            intro hlt
            exact hneg ⟨hp, e, he, hlt⟩
          simp [hlt]
      · rw [if_neg hp]

/-- C8 witness: the frame theorem evaluated on a two-row ledger — a
Pendente row whose expiry has passed becomes Expirado while a Confirmado
row is untouched. -/
theorem limpar_expirados_frame_witness :
    ([rowPend1, rowConf2] : Ledger)[0]? = some rowPend1 ∧
    (limparExpirados ⟨2024, 6, 12, 10, 0, 0⟩ [rowPend1, rowConf2])[0]? =
      some { rowPend1 with status := "Expirado" } ∧
    (limparExpirados ⟨2024, 6, 12, 10, 0, 0⟩ [rowPend1, rowConf2])[1]? = some rowConf2 :=
  ⟨by decide,
    ((limpar_expirados_frame ⟨2024, 6, 12, 10, 0, 0⟩ [rowPend1, rowConf2]).2 0 rowPend1
      (by decide)).1 ⟨by decide, ⟨2024, 6, 12, 9, 4, 0⟩, by decide, by decide⟩,
    ((limpar_expirados_frame ⟨2024, 6, 12, 10, 0, 0⟩ [rowPend1, rowConf2]).2 1 rowConf2
      (by decide)).2 (by decide)⟩

/- ===================================================================
   C1: slot exclusivity under reservar_pendente
   =================================================================== -/

/-- A ledger state with a single Pendente reservation for 08:00 on
2024-06-12 whose expiry (09:04) has already passed. -/
def rowOld : RowE :=
  { agendamentoID := "AG-OLD", nome := "Ana", dataD := ⟨2024, 6, 12⟩, horario := "08:00",
    servico := "Corte", insta := "", status := "Pendente",
    agendadoEm := "12/06/2024 08:44:00", expiraEm := "12/06/2024 09:04:00",
    chatID := "111@c.us", itens := [], total := 0 }

/-- C1 (code bug): reservar_pendente called at 10:00 on the slot held by
the expired-but-still-Pendente rowOld succeeds — the lazy sweep inside
horario_disponivel marks rowOld Expirado and reports the slot free — but
the function then appends the new Pendente row to its stale pre-sweep
frame and saves that, so the persisted ledger ends with TWO rows in
status Pendente for the same (date, slot): slot exclusivity is violated
and the sweep is undone. -/
theorem reservar_pendente_slot_exclusivity_bug :
    (reservarPendente ⟨2024, 6, 12, 10, 0, 0⟩ [rowOld] "AG-NEW" "Bob" "08:00" "Corte"
      ⟨2024, 6, 12⟩ "" "222@c.us" [] none 20).2 = true ∧
    ((reservarPendente ⟨2024, 6, 12, 10, 0, 0⟩ [rowOld] "AG-NEW" "Bob" "08:00" "Corte"
      ⟨2024, 6, 12⟩ "" "222@c.us" [] none 20).1.filter
        (fun r => r.dataD == ⟨2024, 6, 12⟩ && r.horario == "08:00" &&
          r.status == "Pendente")).length = 2 := by
  constructor
  · decide
  · decide

/- ===================================================================
   C3: monetary totals
   =================================================================== -/

/-- The rounding rule the spec asserts: round-half-up at 2 decimals. -/
def roundHalfUp2 (q : ℚ) : ℚ :=
  (Int.floor (q * 100 + 1/2) : ℚ) / 100

/-- The IEEE-754 double nearest to the Python literal 50.005, as an exact
rational: 50.005 * 2^47 = 7037578105208176.64, so the stored double is
7037578105208177 / 2^47, slightly above 50.005. -/
def dbl50005 : ℚ := 7037578105208177 / 140737488355328

/-- C3 counterexample: the stored total is not round-half-up of the raw
sum.  The double 0.125 (exactly representable) times quantity 1 sums to
0.125; Python round(0.125, 2) = 0.12 (ties to even), while round-half-up
gives 0.13. -/
theorem sum_itens_total_not_half_up :
    sumItensTotal [{ title := "Corte", quantity := 1, unitPrice := 1/8 }] = 12/100 ∧
    roundHalfUp2 ((1/8 : ℚ) * ((1 : Int) : ℚ)) = 13/100 ∧
    ((12 : ℚ)/100 : ℚ) ≠ 13/100 := by
  refine ⟨?_, ?_, by norm_num⟩
  · show pyRound2 ((1:ℚ)/8 * ((1 : Int) : ℚ) + 0) = 12/100
    rw [pyRound2]
    norm_num
    decide
  · rw [roundHalfUp2]
    norm_num

theorem pyRound2_mul_100_int (q : ℚ) : ∃ z : Int, pyRound2 q * 100 = (z : ℚ) := by
  rw [pyRound2]
  set n := Int.floor (q * 100) with hn
  by_cases h1 : q * 100 - (n : ℚ) < 1/2
  · exact ⟨n, by rw [if_pos h1]; field_simp⟩
  · rw [if_neg h1]
    by_cases h2 : (1:ℚ)/2 < q * 100 - (n : ℚ)
    · exact ⟨n + 1, by rw [if_pos h2]; field_simp⟩
    · rw [if_neg h2]
      by_cases h3 : Even n
      · exact ⟨n, by rw [if_pos h3]; field_simp⟩
      · exact ⟨n + 1, by rw [if_neg h3]; field_simp⟩

theorem pyRound2_close (q : ℚ) : |pyRound2 q - q| ≤ 1/200 := by
  rw [pyRound2]
  set n := Int.floor (q * 100) with hn
  have hlo : (n : ℚ) ≤ q * 100 := Int.floor_le _
  have hhi : q * 100 < (n : ℚ) + 1 := Int.lt_floor_add_one _
  rw [abs_le]
  by_cases h1 : q * 100 - (n : ℚ) < 1/2
  · rw [if_pos h1]
    constructor <;> [linarith; linarith]
  · rw [if_neg h1]
    have h1' : (1:ℚ)/2 ≤ q * 100 - (n : ℚ) := by linarith
    by_cases h2 : (1:ℚ)/2 < q * 100 - (n : ℚ)
    · rw [if_pos h2]
      constructor <;> linarith
    · rw [if_neg h2]
      have heq : q * 100 - (n : ℚ) = 1/2 := by linarith
      by_cases h3 : Even n
      · rw [if_pos h3]
        constructor <;> linarith
      · rw [if_neg h3]
        constructor <;> linarith

/-- C3 (amended): the stored total is the raw sum of unitPrice*quantity
rounded to 2 decimals by Python round — correct rounding of the exact
value with ties to even, not half-up — so it is always an integer number
of cents within half a cent of the raw sum; and the spec scenario still
holds: for lineItems [(50.005, 1)] the stored total is 50.01, because the
binary double written 50.005 is strictly above the tie point. -/
theorem sum_itens_total_half_even (itens : List Item) :
    (∃ z : Int, sumItensTotal itens * 100 = (z : ℚ)) ∧
    |sumItensTotal itens - (itens.map (fun i => i.unitPrice * (i.quantity : ℚ))).sum| ≤ 1/200 ∧
    sumItensTotal [{ title := "Corte", quantity := 1, unitPrice := dbl50005 }] = 5001/100 := by
  refine ⟨pyRound2_mul_100_int _, pyRound2_close _, ?_⟩
  show pyRound2 (dbl50005 * ((1 : Int) : ℚ) + 0) = 5001/100
  have hq : dbl50005 * ((1 : Int) : ℚ) + 0 = dbl50005 := by push_cast; ring
  rw [hq, pyRound2, dbl50005]
  norm_num

/- ===================================================================
   C4: the structured reference payload of charge creation
   =================================================================== -/

/-- A JSON scalar stored in the external_reference payload. -/
inductive PVal where
  | s (v : String)
  | q (v : ℚ)
deriving DecidableEq

/-- Python dict.get on the parsed reference payload. -/
def lookupP (pld : List (String × PVal)) (k : String) : Option PVal :=
  (pld.find? (fun p => p.1 == k)).map Prod.snd

/-- The external_reference dict built identically by mp_create_preference
and mp_create_pix (json.dumps/json.loads round-tripping is out-of-scope
glue modelled as the identity). -/
def mkExternalRef (empresa agendamentoId chatId nome insta dataIso horario
    servicoLabel : String) (total : ℚ) : List (String × PVal) :=
  [("empresa", .s empresa), ("agendamento_id", .s agendamentoId),
   ("chat_id", .s chatId), ("nome", .s nome), ("insta", .s insta),
   ("data", .s dataIso), ("horario", .s horario),
   ("servico", .s servicoLabel), ("total", .q total)]

/-- Python truthiness of a reference value. -/
def pvTruthy : PVal → Bool
  | .s v => v != ""
  | .q v => v != 0

/-- The webhook handler's total read: pld.get("total") or 0.0. -/
def refTotalVal (pld : List (String × PVal)) : PVal :=
  match lookupP pld "total" with
  | some v => if pvTruthy v then v else .q 0
  | none => .q 0

/-- The service label mp_create_pix derives from the snapshot items:
", ".join(stripped titles) with fallback "Serviço". -/
def servicoLabelOf (itens : List Item) : String :=
  let j := String.intercalate ", " (itens.map (fun i => pyStripS i.title))
  if j == "" then "Serviço" else j

/-- The reference payload built by mp_create_pix from a snapshot: only the
joined label and the total of the items are embedded, not the items. -/
def mkRefFromSnapshot (empresa agendamentoId chatId nome insta dataIso
    horario : String) (itens : List Item) (total : ℚ) : List (String × PVal) :=
  mkExternalRef empresa agendamentoId chatId nome insta dataIso horario
    (servicoLabelOf itens) total

/-- C4 counterexample: the embedded reference does not round-trip the line
items — it carries no item field at all, and two different snapshots (one
Corte at 30 versus two Corte at 15) yield the identical reference, so the
webhook handler cannot recover the embedded reservation's line items from
the reference (it re-reads them from the ledger snapshot instead). -/
theorem external_reference_drops_line_items :
    mkRefFromSnapshot "empresa1" "AG-1" "c" "N" "" "2024-06-12" "08:00"
      [{ title := "Corte", quantity := 1, unitPrice := 30 }] 30 =
    mkRefFromSnapshot "empresa1" "AG-1" "c" "N" "" "2024-06-12" "08:00"
      [{ title := "Corte", quantity := 2, unitPrice := 15 }] 30 ∧
    ([{ title := "Corte", quantity := 1, unitPrice := 30 }] : List Item) ≠
      [{ title := "Corte", quantity := 2, unitPrice := 15 }] ∧
    lookupP (mkRefFromSnapshot "empresa1" "AG-1" "c" "N" "" "2024-06-12" "08:00"
      [{ title := "Corte", quantity := 1, unitPrice := 30 }] 30) "itens" = none := by
  refine ⟨?_, by decide, by decide⟩
  decide

/-- C4 (amended): for every charge, the embedded reference round-trips
losslessly the tenant id, reservation id, chat id and total (as well as
name, instagram handle, date, slot and service label); the line items
themselves are not part of the reference payload. -/
theorem external_reference_roundtrip (e a c n i d h s : String) (t : ℚ) :
    lookupP (mkExternalRef e a c n i d h s t) "empresa" = some (.s e) ∧
    lookupP (mkExternalRef e a c n i d h s t) "agendamento_id" = some (.s a) ∧
    lookupP (mkExternalRef e a c n i d h s t) "chat_id" = some (.s c) ∧
    refTotalVal (mkExternalRef e a c n i d h s t) = .q t := by
  refine ⟨rfl, rfl, rfl, ?_⟩
  show (if pvTruthy (.q t) then PVal.q t else .q 0) = .q t
  by_cases ht : t = 0
  · subst ht
    rfl
  · rw [if_pos]
    simp [pvTruthy, ht]

/- ===================================================================
   C10: at-most-once payment-approved message
   =================================================================== -/

/-- The fields of a fetched Mercado Pago payment that
_process_approved_for_empresa reads (external_reference pre-parsed;
JSON decoding is out-of-scope glue). -/
structure Payment where
  status : String
  externalRef : List (String × PVal)

/-- The chat_id truthiness test guarding the WhatsApp send. -/
def chatTruthy (p : Payment) : Bool :=
  match lookupP p.externalRef "chat_id" with
  | some v => pvTruthy v
  | none => false

/-- Embedding of _process_approved_for_empresa restricted to its ledger
effect and its decision to send the payment-approved WhatsApp message
(the snapshot/obter_por_id reads that only shape the message text are
read-only and elided).  Returns the resulting ledger and whether the
confirmation message is sent. -/
def processApproved (empresa : String) (disk : Ledger) (p : Payment) : Ledger × Bool :=
  if pyLowerS p.status != "approved" then (disk, false)
  else if lookupP p.externalRef "empresa" != some (.s empresa) then (disk, false)
  else
    match lookupP p.externalRef "agendamento_id" with
    | some (.s id) =>
      if id != "" then
        ((confirmarPagamento disk id).1, (confirmarPagamento disk id).2 && chatTruthy p)
      else (disk, false)
    | some (.q _) => (disk, false)
    | none => (disk, false)

theorem confirmar_true_hasPending {disk : Ledger} {id : String}
    (h : (confirmarPagamento disk id).2 = true) : hasPendingId disk id = true := by
  by_cases hp : hasPendingId disk id = true
  · exact hp
  · have h0 : hasPendingId disk id = false := Bool.eq_false_iff.mpr hp
    rw [confirmar_eq_neg h0] at h
    exact absurd h (by simp)

/-- C10: processing the same approved-payment notification twice sends the
payment-approved message at most once — the second processing performs no
ledger change and sends nothing; and whenever a message is sent, the
processing actually transitioned a Pendente reservation with the
referenced id to Confirmado, leaving no Pendente row with that id. -/
theorem payment_approved_at_most_once (empresa : String) (disk : Ledger) (p : Payment) :
    (processApproved empresa (processApproved empresa disk p).1 p).1 =
      (processApproved empresa disk p).1 ∧
    (processApproved empresa (processApproved empresa disk p).1 p).2 = false ∧
    ((processApproved empresa disk p).2 = true →
      ∃ id, lookupP p.externalRef "agendamento_id" = some (.s id) ∧
        hasPendingId disk id = true ∧
        hasPendingId (processApproved empresa disk p).1 id = false) := by
  by_cases hst : (pyLowerS p.status != "approved") = true
  · rw [processApproved, if_pos hst, processApproved, if_pos hst]
    exact ⟨rfl, rfl, by intro h; exact absurd h (by simp)⟩
  · have hst' : (pyLowerS p.status != "approved") = false := Bool.eq_false_iff.mpr hst
    by_cases hemp : (lookupP p.externalRef "empresa" != some (.s empresa)) = true
    · rw [processApproved, hst', if_neg (by simp), if_pos hemp,
        processApproved, hst', if_neg (by simp), if_pos hemp]
      exact ⟨rfl, rfl, by intro h; exact absurd h (by simp)⟩
    · have hemp' : (lookupP p.externalRef "empresa" != some (.s empresa)) = false :=
        Bool.eq_false_iff.mpr hemp
      have hP : ∀ st : Ledger, processApproved empresa st p =
          (match lookupP p.externalRef "agendamento_id" with
           | some (.s id) =>
             if id != "" then
               ((confirmarPagamento st id).1, (confirmarPagamento st id).2 && chatTruthy p)
             else (st, false)
           | some (.q _) => (st, false)
           | none => (st, false)) := by
        intro st
        rw [processApproved, hst', if_neg (by simp), hemp', if_neg (by simp)]
      cases hid : lookupP p.externalRef "agendamento_id" with
      | none =>
        rw [hP disk, hid]
        rw [hP disk, hid]
        exact ⟨rfl, rfl, by intro h; exact absurd h (by simp)⟩
      | some v =>
        cases v with
        | q x =>
          rw [hP disk, hid]
          rw [hP disk, hid]
          exact ⟨rfl, rfl, by intro h; exact absurd h (by simp)⟩
        | s id =>
          by_cases hide : (id != "") = true
          · have hfst : (processApproved empresa disk p).1 = (confirmarPagamento disk id).1 := by
              rw [hP disk, hid]
              simp [hide]
            have hsnd : (processApproved empresa disk p).2 =
                ((confirmarPagamento disk id).2 && chatTruthy p) := by
              rw [hP disk, hid]
              simp [hide]
            have h2nd := hP (processApproved empresa disk p).1
            rw [hid] at h2nd
            simp only [hide, if_pos] at h2nd
            have hnoop := confirmar_second_noop disk id
            refine ⟨?_, ?_, ?_⟩
            · rw [h2nd, hfst]
              simp [hnoop]
            · rw [h2nd, hfst]
              simp [hnoop]
            · intro hsent
              rw [hsnd] at hsent
              have hc : (confirmarPagamento disk id).2 = true :=
                (Bool.and_eq_true _ _).mp hsent |>.1
              have hpend : hasPendingId disk id = true := confirmar_true_hasPending hc
              refine ⟨id, rfl, hpend, ?_⟩
              rw [hfst, confirmar_eq_pos hpend]
              exact confirm_map_no_pending disk id
          · have hide' : (id != "") = false := Bool.eq_false_iff.mpr hide
            have hres : processApproved empresa disk p = (disk, false) := by
              rw [hP disk, hid]
              simp [hide']
            rw [hres]
            rw [hP disk, hid]
            simp only [hide']
            exact ⟨by simp, by simp, by intro h; exact absurd h (by simp)⟩

/- ===================================================================
   C5: tenant resolution precedence (app.py _resolve_empresa)
   =================================================================== -/

/-- Generic assoc-list lookup standing for Python dict.get. -/
def lookupS {α : Type} (m : List (String × α)) (k : String) : Option α :=
  (m.find? (fun p => p.1 == k)).map Prod.snd

/-- The payload session field as the resolver sees it: absent, a plain
string, or a dict whose name/id/session/sessionId entries are read
(string-or-missing modelled; the webhook never carries other types
there). -/
inductive SessVal where
  | none
  | str (v : String)
  | dict (name idf sess sessId : Option String)

/-- Python `a or b` on string-or-None values. -/
def pyOr (a b : Option String) : Option String :=
  match a with
  | some s => if s != "" then some s else b
  | Option.none => b

/-- The dict-unwrapping step of the resolver: session.get("name") or
.get("id") or .get("session") or .get("sessionId"). -/
def sessionName : SessVal → Option String
  | .none => Option.none
  | .str v => some v
  | .dict name idf sess sessId => pyOr name (pyOr idf (pyOr sess sessId))

/-- The static per-process tenant configuration: config_empresas keys in
insertion order, empresa_por_session and empresa_por_numero_bot. -/
structure TenantConfig where
  empresas : List String
  sessionIndex : List (String × List String)
  botIndex : List (String × String)

/-- The resolver's input: the request-level overrides and the normalised
payload fields it reads. -/
structure ResolverInput where
  qEmpresa : Option String
  hEmpresa : Option String
  empresaHint : Option String
  session : SessVal
  owner : Option String
  toId : Option String

/-- The `x and x in config_empresas` test of steps 1-3. -/
def truthyKnown (cfg : TenantConfig) : Option String → Bool
  | some s => s != "" && cfg.empresas.contains s
  | Option.none => false

/-- _normalize_chat_id applied to an optional field (None yields ""). -/
def normalizeChatIdS : Option String → String
  | some s => String.mk (normalizeChatId s.toList)
  | Option.none => ""

/-- The session step of the resolver (`if candidatos and len(candidatos)
== 1: return candidatos[0]`), applied to a non-None session value. -/
def sessionLookupCode (cfg : TenantConfig) (s : String) : Option String :=
  if s != "" then
    match lookupS cfg.sessionIndex s with
    | some cands => if !cands.isEmpty && cands.length == 1 then cands.head? else Option.none
    | Option.none => Option.none
  else Option.none

def sessionBranchCode (cfg : TenantConfig) (sv : SessVal) : Option String :=
  match sessionName sv with
  | some s => sessionLookupCode cfg s
  | Option.none => Option.none

/-- The `if owner and owner in empresa_por_numero_bot` step. -/
def botLookupCode (cfg : TenantConfig) (ident : String) : Option String :=
  if ident != "" then lookupS cfg.botIndex ident else Option.none

/-- Embedding of app.py _resolve_empresa: the eight sequential
early-return steps of the source. -/
def resolveEmpresa (cfg : TenantConfig) (inp : ResolverInput) : Option String :=
  if truthyKnown cfg inp.qEmpresa then inp.qEmpresa
  else if truthyKnown cfg inp.hEmpresa then inp.hEmpresa
  else if truthyKnown cfg inp.empresaHint then inp.empresaHint
  else
    match sessionBranchCode cfg inp.session with
    | some e => some e
    | Option.none =>
      match botLookupCode cfg (normalizeChatIdS inp.owner) with
      | some e => some e
      | Option.none =>
        match botLookupCode cfg (normalizeChatIdS inp.toId) with
        | some e => some e
        | Option.none =>
          if cfg.empresas.length == 1 then cfg.empresas.head?
          else if cfg.empresas.contains "empresa1" then some "empresa1"
          else Option.none

/-- Step 4 as the claim words it: the session hint maps to exactly one
tenant. -/
def sessionLookupSpec (cfg : TenantConfig) (s : String) : Option String :=
  match lookupS cfg.sessionIndex s with
  | some [e] => some e
  | _ => Option.none

def sessionUniqueSpec (cfg : TenantConfig) (sv : SessVal) : Option String :=
  match sessionName sv with
  | some s => sessionLookupSpec cfg s
  | Option.none => Option.none

/-- Steps 1-3 as the claim words them: the override names a known tenant. -/
def knownTenant (cfg : TenantConfig) : Option String → Bool
  | some s => cfg.empresas.contains s
  | Option.none => false

/-- The 8-step precedence written from the claim's words: first match
wins among (1) query override naming a known tenant, (2) header override,
(3) payload hint, (4) session hint mapping to exactly one tenant,
(5) canonicalized owner in the bot-number index, (6) canonicalized to in
the index, (7) the sole configured tenant, (8) the configured default
tenant name if present; otherwise unresolved. -/
def resolveEmpresaSpec (cfg : TenantConfig) (inp : ResolverInput) : Option String :=
  if knownTenant cfg inp.qEmpresa then inp.qEmpresa
  else if knownTenant cfg inp.hEmpresa then inp.hEmpresa
  else if knownTenant cfg inp.empresaHint then inp.empresaHint
  else
    match sessionUniqueSpec cfg inp.session with
    | some e => some e
    | Option.none =>
      match lookupS cfg.botIndex (normalizeChatIdS inp.owner) with
      | some e => some e
      | Option.none =>
        match lookupS cfg.botIndex (normalizeChatIdS inp.toId) with
        | some e => some e
        | Option.none =>
          if cfg.empresas.length == 1 then cfg.empresas.head?
          else if cfg.empresas.contains "empresa1" then some "empresa1"
          else Option.none

theorem session_lookup_code_eq_spec (cfg : TenantConfig) (s : String)
    (h2 : lookupS cfg.sessionIndex "" = Option.none) :
    sessionLookupCode cfg s = sessionLookupSpec cfg s := by
  rw [sessionLookupCode, sessionLookupSpec]
  by_cases hs : s = ""
  · subst hs
    rw [h2]
    rfl
  · have hs' : (s != "") = true := by simp [hs]
    rw [hs']
    cases lookupS cfg.sessionIndex s with
    | none => rfl
    | some cands =>
      match cands with
      | [] => rfl
      | [e] => rfl
      | a :: b :: t => rfl

theorem bot_lookup_code_eq_spec (cfg : TenantConfig) (ident : String)
    (h3 : lookupS cfg.botIndex "" = Option.none) :
    botLookupCode cfg ident = lookupS cfg.botIndex ident := by
  rw [botLookupCode]
  by_cases hs : ident = ""
  · subst hs
    rw [h3]
    rfl
  · have hs' : (ident != "") = true := by simp [hs]
    rw [hs']
    rfl

theorem truthy_known_eq_spec (cfg : TenantConfig) (o : Option String)
    (h1 : cfg.empresas.contains "" = false) :
    truthyKnown cfg o = knownTenant cfg o := by
  match o with
  | Option.none => rfl
  | some s =>
    by_cases hs : s = ""
    · subst hs
      show (("" : String) != "" && cfg.empresas.contains "") = cfg.empresas.contains ""
      rw [h1]
      rfl
    · have hs' : (s != "") = true := by simp [hs]
      show (s != "" && cfg.empresas.contains s) = cfg.empresas.contains s
      rw [hs']
      rfl

/-- C5: the tenant resolver follows exactly the 8-step first-match-wins
precedence of the spec, provided the static indexes never key the empty
string (true of the startup construction, which only indexes truthy
normalised numbers and non-empty session names). -/
theorem resolve_empresa_precedence (cfg : TenantConfig) (inp : ResolverInput)
    (h1 : cfg.empresas.contains "" = false)
    (h2 : lookupS cfg.sessionIndex "" = Option.none)
    (h3 : lookupS cfg.botIndex "" = Option.none) :
    resolveEmpresa cfg inp = resolveEmpresaSpec cfg inp := by
  have hsession : sessionBranchCode cfg inp.session = sessionUniqueSpec cfg inp.session := by
    rw [sessionBranchCode, sessionUniqueSpec]
    cases sessionName inp.session with
    | none => rfl
    | some s => exact session_lookup_code_eq_spec cfg s h2
  rw [resolveEmpresa, resolveEmpresaSpec]
  rw [truthy_known_eq_spec cfg inp.qEmpresa h1, truthy_known_eq_spec cfg inp.hEmpresa h1,
    truthy_known_eq_spec cfg inp.empresaHint h1, hsession,
    bot_lookup_code_eq_spec cfg (normalizeChatIdS inp.owner) h3,
    bot_lookup_code_eq_spec cfg (normalizeChatIdS inp.toId) h3]

/-- C5 witness: the precedence theorem applied to a concrete two-tenant
configuration where only the session hint applies, resolving empresa2. -/
theorem resolve_empresa_precedence_witness :
    resolveEmpresa
      ⟨["empresa1", "empresa2"], [("s1", ["empresa2"])], [("5511@c.us", "empresa1")]⟩
      ⟨Option.none, Option.none, Option.none, .str "s1", Option.none, Option.none⟩ =
    resolveEmpresaSpec
      ⟨["empresa1", "empresa2"], [("s1", ["empresa2"])], [("5511@c.us", "empresa1")]⟩
      ⟨Option.none, Option.none, Option.none, .str "s1", Option.none, Option.none⟩ ∧
    resolveEmpresa
      ⟨["empresa1", "empresa2"], [("s1", ["empresa2"])], [("5511@c.us", "empresa1")]⟩
      ⟨Option.none, Option.none, Option.none, .str "s1", Option.none, Option.none⟩ =
      some "empresa2" :=
  ⟨resolve_empresa_precedence _ _ (by decide) (by decide) (by decide), by decide⟩

/- ===================================================================
   C6: normalizer message-node selection (app.py _extract_message_fields)
   =================================================================== -/

/-- A JSON tree as delivered to the webhook. -/
inductive J where
  | null
  | b (v : Bool)
  | num (v : ℚ)
  | str (v : String)
  | arr (items : List J)
  | obj (fields : List (String × J))

/-- Python truthiness of a JSON value. -/
def jTruthy : J → Bool
  | .null => false
  | .b v => v
  | .num v => v != 0
  | .str v => v != ""
  | .arr items => !items.isEmpty
  | .obj fields => !fields.isEmpty

/-- Python value.get(k) (None for missing key or non-dict). -/
def jGet : J → String → J
  | .obj fields, k =>
    match (fields.find? (fun p => p.1 == k)).map Prod.snd with
    | some v => v
    | Option.none => .null
  | _, _ => .null

def isDict : J → Bool
  | .obj _ => true
  | _ => false

/-- Python `k in data` on a dict. -/
def hasKey (v : J) (k : String) : Bool :=
  match v with
  | .obj fields => fields.any (fun p => p.1 == k)
  | _ => false

/-- The flat-message key set tested by the source (note it includes "t",
which the spec's listing omits). -/
def flatKeys : List String :=
  ["body", "text", "from", "chatId", "sender", "to", "fromMe", "timestamp",
   "t", "id", "messages", "message"]

/-- The key set as listed by the spec sentence (without "t"). -/
def claimFlatKeys : List String :=
  ["body", "text", "from", "chatId", "sender", "to", "fromMe", "timestamp",
   "id", "messages", "message"]

/-- Step 1 of the source: data = payload.get("data") or payload.get("payload")
or payload or {}, then first element if that value is a non-empty list. -/
def locateData (payload : J) : J :=
  let d0 := if jTruthy (jGet payload "data") then jGet payload "data"
            else if jTruthy (jGet payload "payload") then jGet payload "payload"
            else if jTruthy payload then payload else .obj []
  match d0 with
  | .arr (x :: _) => x
  | _ => d0

/-- Steps 1)-2) of the source msg_obj selection: msg_obj := data when the
flat-key test fires, then OVERRIDDEN by data["messages"][0] whenever data
has a non-empty messages list (the source's second if is not an elif). -/
def pickedCode (data : J) : Option J :=
  let m1 : Option J :=
    if isDict data && flatKeys.any (hasKey data) then some data else Option.none
  if isDict data then
    match jGet data "messages" with
    | .arr (x :: _) => some x
    | _ => m1
  else m1

/-- The root-level messages fallback (step 3). -/
def rootMessages (payload : J) : Option J :=
  match jGet payload "messages" with
  | .arr (x :: _) => some x
  | _ => Option.none

/-- The final `msg_obj = msg_obj or {}` coercion. -/
def orEmptyObj : Option J → J
  | some m => if jTruthy m then m else .obj []
  | Option.none => .obj []

/-- Embedding of the full msg_obj selection of _extract_message_fields. -/
def selectMsgObj (payload : J) : J :=
  orEmptyObj (match pickedCode (locateData payload) with
    | some m => some m
    | Option.none => rootMessages payload)

/-- The claim's selection order: flat-object test first (with the claim's
key set), messages list only when the flat test did not match. -/
def pickedClaim (data : J) : Option J :=
  if isDict data && claimFlatKeys.any (hasKey data) then some data
  else if isDict data then
    match jGet data "messages" with
    | .arr (x :: _) => some x
    | _ => Option.none
  else Option.none

def selectMsgObjClaim (payload : J) : J :=
  orEmptyObj (match pickedClaim (locateData payload) with
    | some m => some m
    | Option.none => rootMessages payload)

/-- The amended selection order: a non-empty messages list wins, the flat
test (with the source's key set, including "t") applies only otherwise. -/
def pickedAmended (data : J) : Option J :=
  if isDict data then
    match jGet data "messages" with
    | .arr (x :: _) => some x
    | _ => if flatKeys.any (hasKey data) then some data else Option.none
  else Option.none

def selectMsgObjAmended (payload : J) : J :=
  orEmptyObj (match pickedAmended (locateData payload) with
    | some m => some m
    | Option.none => rootMessages payload)

/-- A payload whose located node passes the flat test AND carries a
non-empty messages list. -/
def payloadBoth : J :=
  .obj [("body", .str "a"), ("messages", .arr [.obj [("body", .str "b")]])]

/-- C6 counterexample: on payloadBoth the flat-object test matches (key
"body"), yet the source takes messages[0] — the node itself is not the
message node, refuting the claimed flat-first precedence. -/
theorem select_msg_obj_not_flat_first :
    selectMsgObj payloadBoth = .obj [("body", .str "b")] ∧
    selectMsgObjClaim payloadBoth = payloadBoth ∧
    selectMsgObj payloadBoth ≠ selectMsgObjClaim payloadBoth := by
  refine ⟨rfl, rfl, ?_⟩
  intro h
  have h' : J.obj [("body", .str "b")] =
      J.obj [("body", .str "a"), ("messages", .arr [.obj [("body", .str "b")]])] := h
  simp at h'

theorem picked_code_eq_amended (data : J) : pickedCode data = pickedAmended data := by
  cases data with
  | obj fields =>
    rw [pickedCode, pickedAmended]
    simp only [isDict, if_true, Bool.true_and]
  | null => rfl
  | b v => rfl
  | num v => rfl
  | str v => rfl
  | arr items => rfl

/-- C6 (amended): the node selection is messages-first — whenever the
located node is a dict with a non-empty messages list, its first element
is the message node even if the flat-object test (whose key set also
includes "t") matched; the node itself is used only when there is no such
list; the root-level messages fallback applies only when neither
selected. -/
theorem select_msg_obj_messages_first (payload : J) :
    selectMsgObj payload = selectMsgObjAmended payload := by
  rw [selectMsgObj, selectMsgObjAmended, picked_code_eq_amended]

/-- A concrete approved payment whose reference names reservation AG-1. -/
def paymentEx : Payment :=
  { status := "approved",
    externalRef := mkExternalRef "empresa1" "AG-1" "111@c.us" "Ana" ""
      "2024-06-12" "08:00" "Corte" 30 }

/-- C10 witness: on a ledger holding the Pendente reservation AG-1, the
first processing of paymentEx sends the message and the theorem's
transition conclusion holds at that concrete input. -/
theorem payment_approved_at_most_once_witness :
    (processApproved "empresa1" [rowPend1] paymentEx).2 = true ∧
    (∃ id, lookupP paymentEx.externalRef "agendamento_id" = some (.s id) ∧
      hasPendingId [rowPend1] id = true ∧
      hasPendingId (processApproved "empresa1" [rowPend1] paymentEx).1 id = false) :=
  ⟨by decide, (payment_approved_at_most_once "empresa1" [rowPend1] paymentEx).2.2 (by decide)⟩

/- ===================================================================
   C9: the conversation state machine of
   scripts_empresas/empresa1/fluxo.py

   processar is embedded as a pure transition function on the per-chat
   ConversationState; outbound sends are elided (they never touch the
   state), and every interaction with the ledger, the catalogue and the
   payment endpoint is abstracted as a per-step oracle in FlowEnv, because
   the state transitions depend on those externals only through the
   booleans and strings the oracle supplies.  The theorem quantifies over
   all oracle answers, a superset of the real behaviours.
   =================================================================== -/

/-- Generic left-to-right replace-all of a fixed non-empty pattern
(Python str.replace), with fuel bounded by the input length (each step
consumes at least one character). -/
def replaceFuel (pat rep : List Char) : Nat → List Char → List Char
  | 0, s => s
  | _, [] => []
  | fuel + 1, c :: cs =>
    if !pat.isEmpty && pat.isPrefixOf (c :: cs) then
      rep ++ replaceFuel pat rep fuel (cs.drop (pat.length - 1))
    else c :: replaceFuel pat rep fuel cs

def replaceAllL (pat rep s : List Char) : List Char := replaceFuel pat rep s.length s

/-- Squeeze runs of spaces to one space (the effect of re.sub(\s+, " ")
after whitespace has been mapped to spaces). -/
def squeezeSpaces : List Char → List Char
  | [] => []
  | [c] => [c]
  | c :: d :: t =>
    if c == ' ' && d == ' ' then squeezeSpaces (d :: t) else c :: squeezeSpaces (d :: t)

/-- re.sub(r"\s+", " ", t): every maximal whitespace run becomes one
space. -/
def collapseWS (l : List Char) : List Char :=
  squeezeSpaces (l.map (fun c => if isPyWS c then ' ' else c))

def keycapA : Char := Char.ofNat 0xFE0F

def keycapB : Char := Char.ofNat 0x20E3

/-- The EMOJI_TO_NUM table of fluxo.py (keycap digit emojis), in source
order. -/
def emojiToNum : List (List Char × Char) :=
  [(['1', keycapA, keycapB], '1'), (['2', keycapA, keycapB], '2'),
   (['3', keycapA, keycapB], '3'), (['4', keycapA, keycapB], '4'),
   (['5', keycapA, keycapB], '5'), (['6', keycapA, keycapB], '6'),
   (['7', keycapA, keycapB], '7'), (['8', keycapA, keycapB], '8'),
   (['9', keycapA, keycapB], '9'), (['0', keycapA, keycapB], '0')]

/-- Embedding of fluxo.py _norm: strip, map keycap emojis to digits, drop
zero-width characters, collapse whitespace, strip. -/
def normMsg (msg : String) : List Char :=
  let t0 := stripL msg.toList
  let t1 := emojiToNum.foldl (fun acc p => replaceAllL p.1 [p.2] acc) t0
  let t2 := replaceAllL [Char.ofNat 0x200B] [] t1
  let t3 := replaceAllL [Char.ofNat 0x200C] [] t2
  stripL (collapseWS t3)

def lowerL (l : List Char) : List Char := l.map asciiLowerC

/-- Embedding of fluxo.py _is_universal. -/
def isUniversal (msg : String) : Option String :=
  let key := String.mk (lowerL (normMsg msg))
  if key == "menu" || key == "início" || key == "inicio" then some "menu"
  else if key == "voltar" then some "voltar"
  else if key == "cancelar" then some "cancelar"
  else if key == "ajuda" then some "ajuda"
  else if key == "atendente" || key == "falar com atendente" || key == "humano" then
    some "atendente"
  else Option.none

/-- The MENU_ROUTER dict of fluxo.py, in source order. -/
def menuRouter : List (String × String) :=
  [("1", "agendar"), ("agendar", "agendar"), ("agendamento", "agendar"),
   ("agendar horario", "agendar"), ("agendar horário", "agendar"),
   ("2", "servicos"), ("servicos", "servicos"), ("serviços", "servicos"),
   ("ver servicos", "servicos"), ("ver serviços", "servicos"),
   ("3", "ver_horarios"), ("ver horarios", "ver_horarios"),
   ("ver horários", "ver_horarios"), ("horarios", "ver_horarios"),
   ("horários", "ver_horarios"),
   ("4", "atendente"), ("atendente", "atendente"),
   ("falar com atendente", "atendente"), ("humano", "atendente")]

/-- The TEXTUAL_TRIGGERS set of fluxo.py. -/
def textualTriggers : List String :=
  ["agendar", "agendamento", "agendar horario", "agendar horário",
   "servicos", "serviços", "ver servicos", "ver serviços",
   "ver horarios", "ver horários", "horarios", "horários",
   "atendente", "falar com atendente", "humano"]

/-- The SERVICOS catalogue: key, slug, label (slug equals the lowercase
label for every entry of the source). -/
def servicosList : List (String × String × String) :=
  [("1", "corte social", "Corte social"), ("2", "degradê", "Degradê"),
   ("3", "sobrancelha", "Sobrancelha"), ("4", "barba", "Barba")]

def isSepC (c : Char) : Bool := isPyWS c || c == ','

/-- re.split(r"[,\s]+", ...) restricted to its non-empty tokens (the
source skips empty tokens), with fuel bounded by the input length. -/
def splitCWSGo : Nat → List Char → List (List Char)
  | 0, _ => []
  | _, [] => []
  | fuel + 1, l =>
    match l.dropWhile isSepC with
    | [] => []
    | c :: t =>
      (c :: t).takeWhile (fun x => !isSepC x) ::
        splitCWSGo fuel ((c :: t).dropWhile (fun x => !isSepC x))

def splitCWS (l : List Char) : List (List Char) := splitCWSGo (l.length + 1) l

def dedupeKeepOrder (l : List String) : List String :=
  l.foldl (fun acc x => if acc.contains x then acc else acc ++ [x]) []

/-- Embedding of fluxo.py _parse_servicos_input. -/
def parseServicosS (texto : String) : List String :=
  let raw := splitCWS (lowerL (normMsg texto))
  let found := raw.foldl (fun acc token =>
    let ts := String.mk token
    if ts == "" then acc
    else if servicosList.any (fun s => s.1 == ts) then acc ++ [ts]
    else match servicosList.find? (fun s => s.2.1 == ts) with
      | some s => acc ++ [s.1]
      | Option.none => acc) []
  dedupeKeepOrder found

/-- Substring test (Python `a in b`). -/
def isSubstrL (needle hay : List Char) : Bool :=
  (List.range (hay.length + 1)).any (fun i => needle.isPrefixOf (hay.drop i))

def blocosHorarios : List String :=
  ["08:00", "09:00", "10:00", "11:00", "13:00", "14:00", "15:00", "16:00", "17:00"]

def dateLt (a b : DateD) : Bool :=
  decide (a.year < b.year ∨ (a.year = b.year ∧ (a.month < b.month ∨ (a.month = b.month ∧
    a.day < b.day))))

def validDate (y m d : Nat) : Bool :=
  decide (1 ≤ y ∧ y ≤ 9999 ∧ 1 ≤ m ∧ m ≤ 12 ∧ 1 ≤ d ∧ d ≤ daysInMonth y m)

/-- Embedding of fluxo.py _parse_data: one or two digits, a slash or dash
separator, one or two digits, surrounded by optional whitespace; then
date(year, m, d) with roll-over to next year when the day has already
passed this year. -/
def parseDataL (now : DT) (l : List Char) : Option DateD :=
  match readNum 2 (l.dropWhile isPyWS) with
  | some (d, r1) =>
    match r1 with
    | sep :: r2 =>
      if sep == '/' || sep == '-' then
        match readNum 2 r2 with
        | some (m, r3) =>
          if r3.dropWhile isPyWS == [] then
            if validDate now.year m d then
              if dateLt ⟨now.year, m, d⟩ ⟨now.year, now.month, now.day⟩ then
                if validDate (now.year + 1) m d then some ⟨now.year + 1, m, d⟩
                else Option.none
              else some ⟨now.year, m, d⟩
            else Option.none
          else Option.none
        | Option.none => Option.none
      else Option.none
    | [] => Option.none
  | Option.none => Option.none

def digitsVal (l : List Char) : Option Nat :=
  if !l.isEmpty && l.all Char.isDigit then
    some (l.foldl (fun acc c => acc * 10 + (c.toNat - 48)) 0)
  else Option.none

/-- Python int(...) on a trimmed decimal string (underscore separators,
which the flow never receives, are not modelled). -/
def pyIntL (l : List Char) : Option Int :=
  match stripL l with
  | '+' :: rest => (digitsVal rest).map Int.ofNat
  | '-' :: rest => (digitsVal rest).map (fun n => -(n : Int))
  | rest => (digitsVal rest).map Int.ofNat

/-- The name pattern ^[A-Za-zÀ-ÿ'´`^~\- ]{2,}$ of solicitar_nome. -/
def isNameChar (c : Char) : Bool :=
  c.isAlpha || (0xC0 ≤ c.toNat && c.toNat ≤ 0xFF) || c == Char.ofNat 39 ||
    c == Char.ofNat 0xB4 || c == Char.ofNat 0x60 || c == '^' || c == '~' ||
    c == '-' || c == ' '

def validName (l : List Char) : Bool := 2 ≤ l.length && l.all isNameChar

/-- The instagram pattern ^@?[A-Za-z0-9._]{1,30}$ of solicitar_insta. -/
def isInstaChar (c : Char) : Bool := c.isAlphanum || c == '.' || c == '_'

def validInsta (l : List Char) : Bool :=
  let core := match l with
    | '@' :: r => r
    | r => r
  1 ≤ core.length && core.length ≤ 30 && core.all isInstaChar

def lowersParticles : List String := ["de", "da", "do", "dos", "das", "e", "di", "du"]

def capitalizeW (s : String) : String :=
  match s.toList with
  | [] => ""
  | c :: t => String.mk (asciiUpperC c :: t)

/-- The name formatting of solicitar_nome: split the collapsed name on
spaces, lowercase each part, capitalise all but inner particles. -/
def formatName (l : List Char) : String :=
  let parts := (String.mk (stripL (collapseWS l))).splitOn " "
  let formatted := (parts.enum.map (fun pi =>
    let p := pyLowerS pi.2
    if pi.1 ≠ 0 ∧ lowersParticles.contains p then p else capitalizeW p))
  String.intercalate " " formatted

/-- The ^\s*remover\s+(.+)\s*$ match of selecionar_servicos, returning the
stripped capture. -/
def parseRemover (l : List Char) : Option (List Char) :=
  let l1 := l.dropWhile isPyWS
  if ("remover".toList).isPrefixOf l1 then
    let rest := l1.drop 7
    match rest with
    | c :: _ :: _ =>
      if isPyWS c then some (stripL (rest.dropWhile isPyWS)) else Option.none
    | _ => Option.none
  else Option.none

/-- The PIX context snapshot stored by the booking branch. -/
structure PixCtx where
  chatId : String
  nome : String
  insta : String
  dataIso : DateD
  horario : String
deriving DecidableEq

/-- The mutable per-chat context dict, restricted to the keys the flow
reads or writes. -/
structure Ctx where
  servicos : List String
  nomeCliente : Option String
  insta : Option String
  dataSel : Option DateD
  consultaData : Option DateD
  ultimoAgendamentoId : Option String
  ultimoPix : Option PixCtx
deriving DecidableEq

def ctxEmpty : Ctx :=
  ⟨[], Option.none, Option.none, Option.none, Option.none, Option.none, Option.none⟩

/-- The ConversationState of one chat: {"etapa", "pilha", "ctx"}. -/
structure ConvState where
  etapa : String
  pilha : List String
  ctx : Ctx
deriving DecidableEq

/-- The fresh state _get creates on first contact. -/
def initState : ConvState := ⟨"menu", [], ctxEmpty⟩

/-- fluxo.py _push: append the current stage to the stack, move on. -/
def pushState (st : ConvState) (new : String) : ConvState :=
  { st with pilha := st.pilha ++ [st.etapa], etapa := new }

/-- fluxo.py _goto. -/
def gotoState (st : ConvState) (new : String) : ConvState :=
  { st with etapa := new }

/-- fluxo.py _back: pop the last stack entry if any. -/
def backState (st : ConvState) : ConvState × Bool :=
  match st.pilha.getLast? with
  | some prev => ({ st with etapa := prev, pilha := st.pilha.dropLast }, true)
  | Option.none => (st, false)

/-- fluxo.py _reset. -/
def resetState (_ : ConvState) : ConvState := initState

/-- The per-step oracle answers for everything outside the conversation
state: the clock, the ledger reads, the catalogue and the payment
endpoint. -/
structure FlowEnv where
  chatId : String
  now : DT
  hoje : DateD
  horariosText : DateD → String
  slotFree : String → DateD → Bool
  reservaOk : Bool
  novoAgId : String
  pixOk : Bool
  catalogoItem : String → Option Item

/-- The states handled by processar (the Flow Engine's declared states). -/
def declaredStates : List String :=
  ["menu", "selecionar_servicos", "solicitar_nome", "solicitar_insta",
   "solicitar_data", "solicitar_horario", "ver_horarios_data", "ver_horarios_listar"]

/-- fluxo.py _handle_menu_action (sends elided). -/
def handleMenuAction (env : FlowEnv) (escolha : String) (st : ConvState) : ConvState :=
  if escolha == "agendar" then
    let st1 := pushState st "selecionar_servicos"
    { st1 with ctx := { st1.ctx with servicos := [] } }
  else if escolha == "servicos" then gotoState st "menu"
  else if escolha == "ver_horarios" then
    gotoState { st with ctx := { st.ctx with consultaData := some env.hoje } }
      "ver_horarios_listar"
  else if escolha == "atendente" then gotoState st "menu"
  else st

/-- The "não encontrei horários" emptiness test on listar output. -/
def horariosEmpty (env : FlowEnv) (dt : DateD) : Bool :=
  env.horariosText dt == "" || pyStripS (env.horariosText dt) == ""

/-- The ids to remove: the parsed tokens, with the substring fallback over
labels and slugs when parsing found nothing. -/
def removerIds (alvo : List Char) : List String :=
  if (parseServicosS (String.mk alvo)).isEmpty && !alvo.isEmpty then
    match servicosList.find? (fun s =>
      isSubstrL alvo (pyLowerS s.2.2).toList || isSubstrL alvo s.2.1.toList) with
    | some s => [s.1]
    | Option.none => []
  else parseServicosS (String.mk alvo)

/-- The removal loop: erase each id present in the cart. -/
def removeFold (ids carrinho : List String) : List String :=
  ids.foldl (fun acc sid => if acc.contains sid then acc.erase sid else acc) carrinho

/-- The addition loop: append each catalogue id not already in the cart. -/
def addFold (ids carrinho : List String) : List String :=
  ids.foldl (fun acc sid =>
    if !acc.contains sid && servicosList.any (fun s => s.1 == sid) then acc ++ [sid]
    else acc) carrinho

/-- The selecionar_servicos stage body (carrinho is ctx.servicos). -/
def handleSelServ (st : ConvState) (msgLower : String) : ConvState :=
  if msgLower == "pronto" || msgLower == "finalizar" || msgLower == "ok" then
    if st.ctx.servicos.isEmpty then st else gotoState st "solicitar_nome"
  else if msgLower == "limpar" then { st with ctx := { st.ctx with servicos := [] } }
  else match parseRemover msgLower.toList with
  | some alvo =>
    if (removerIds alvo).isEmpty then st
    else { st with ctx :=
      { st.ctx with servicos := removeFold (removerIds alvo) st.ctx.servicos } }
  | Option.none =>
    if (parseServicosS msgLower).isEmpty then st
    else { st with ctx :=
      { st.ctx with servicos := addFold (parseServicosS msgLower) st.ctx.servicos } }

/-- The solicitar_nome stage body. -/
def handleNome (st : ConvState) (msgNorm : List Char) : ConvState :=
  if String.mk (lowerL msgNorm) == "pular" || String.mk (lowerL msgNorm) == "skip" then
    gotoState { st with ctx := { st.ctx with nomeCliente := some "Cliente" } }
      "solicitar_insta"
  else if !validName msgNorm then st
  else
    gotoState { st with ctx := { st.ctx with nomeCliente := some (formatName msgNorm) } }
      "solicitar_insta"

/-- The solicitar_insta stage body. -/
def handleInsta (st : ConvState) (msgNorm : List Char) : ConvState :=
  let handle := stripL msgNorm
  let hl := String.mk (lowerL handle)
  if hl == "pular" || hl == "skip" || hl == "" then
    gotoState { st with ctx := { st.ctx with insta := some "" } } "solicitar_data"
  else if !validInsta handle then st
  else
    let insta := if (lowerL handle).head? = some '@' then String.mk (lowerL handle)
      else String.mk ('@' :: lowerL handle)
    gotoState { st with ctx := { st.ctx with insta := some insta } } "solicitar_data"

/-- The solicitar_data stage body (ctx.data is stored before the
availability listing is examined). -/
def handleData (env : FlowEnv) (st : ConvState) (msgNorm : List Char) : ConvState :=
  match parseDataL env.now (msgNorm.filter (fun c => c ≠ ' ')) with
  | Option.none => st
  | some dt =>
    let st1 := { st with ctx := { st.ctx with dataSel := some dt } }
    if horariosEmpty env dt then st1
    else gotoState st1 "solicitar_horario"

/-- The item list the booking branch builds from the catalogue (only its
emptiness affects the state; the items otherwise feed the ledger call and
the message text). -/
def itensFromCatalogo (env : FlowEnv) (servIds : List String) : List Item :=
  servIds.foldl (fun acc sid =>
    match env.catalogoItem sid with
    | some it => acc ++ [it]
    | Option.none => acc) []

/-- The solicitar_horario stage body: on success the booking branch stores
the PIX context and then unconditionally resets (which replaces the ctx
dict, so those writes do not survive); a criar_pre_agendamento failure
raises past processar and is caught at the dispatch boundary with the
state as-is. -/
def handleHorario (env : FlowEnv) (st : ConvState) (msgNorm : List Char) : ConvState :=
  match pyIntL msgNorm with
  | Option.none => st
  | some idx =>
    if !(1 ≤ idx && idx ≤ (blocosHorarios.length : Int)) then st
    else
      match st.ctx.dataSel with
      | Option.none => resetState st
      | some dataSel =>
        if !env.slotFree ((blocosHorarios.drop (idx.toNat - 1)).headD "") dataSel then st
        else if (itensFromCatalogo env st.ctx.servicos).isEmpty then st
        else if !env.reservaOk then st
        else
          resetState { st with ctx := { st.ctx with
            ultimoAgendamentoId := some env.novoAgId,
            ultimoPix := some ⟨env.chatId, st.ctx.nomeCliente.getD "Cliente",
              st.ctx.insta.getD "", dataSel,
              (blocosHorarios.drop (idx.toNat - 1)).headD ""⟩ } }

/-- The ver_horarios_data stage body. -/
def handleVerData (env : FlowEnv) (st : ConvState) (msgNorm : List Char) : ConvState :=
  match parseDataL env.now (msgNorm.filter (fun c => c ≠ ' ')) with
  | Option.none => st
  | some dt =>
    gotoState { st with ctx := { st.ctx with consultaData := some dt } }
      "ver_horarios_listar"

/-- The ver_horarios_listar stage body. -/
def handleVerListar (env : FlowEnv) (st : ConvState) (msgNorm : List Char)
    (msgLower : String) : ConvState :=
  match parseDataL env.now (msgNorm.filter (fun c => c ≠ ' ')) with
  | some dt => { st with ctx := { st.ctx with consultaData := some dt } }
  | Option.none =>
    if msgLower == "agendar" || msgLower == "quero agendar" ||
        msgLower == "fazer agendamento" then
      let st1 := pushState st "selecionar_servicos"
      { st1 with ctx := { st1.ctx with servicos := [] } }
    else st

/-- Part 3) of processar: dispatch on the current stage, with the final
catch-all reset. -/
def stateDispatch (env : FlowEnv) (st : ConvState) (msgNorm : List Char)
    (msgLower : String) : ConvState :=
  if st.etapa == "menu" then gotoState st "menu"
  else if st.etapa == "selecionar_servicos" then handleSelServ st msgLower
  else if st.etapa == "solicitar_nome" then handleNome st msgNorm
  else if st.etapa == "solicitar_insta" then handleInsta st msgNorm
  else if st.etapa == "solicitar_data" then handleData env st msgNorm
  else if st.etapa == "solicitar_horario" then handleHorario env st msgNorm
  else if st.etapa == "ver_horarios_data" then handleVerData env st msgNorm
  else if st.etapa == "ver_horarios_listar" then handleVerListar env st msgNorm msgLower
  else resetState st

/-- Parts 1.1)-3) of processar: payment quick commands (state-neutral),
menu hotkeys, stage dispatch. -/
def processRest (env : FlowEnv) (st : ConvState) (msgNorm : List Char)
    (msgLower : String) : ConvState :=
  if msgLower == "status" || msgLower == "status do pagamento" ||
      msgLower == "pagamento" then st
  else if msgLower == "reenviar pix" || msgLower == "reenvia pix" ||
      msgLower == "pix de novo" || msgLower == "pagar agora" then st
  else
    match (if st.etapa == "menu" then lookupS menuRouter msgLower
           else if textualTriggers.contains msgLower then lookupS menuRouter msgLower
           else Option.none) with
    | some escolha => handleMenuAction env escolha st
    | Option.none => stateDispatch env st msgNorm msgLower

/-- Embedding of fluxo.py processar as a transition on ConversationState
(outbound sends elided; externals supplied by the FlowEnv oracle). -/
def processar (env : FlowEnv) (st : ConvState) (msg : String) : ConvState :=
  let msgNorm := normMsg msg
  let msgLower := String.mk (lowerL msgNorm)
  match isUniversal msg with
  | some u =>
    if u == "menu" then resetState st
    else if u == "voltar" then (backState st).1
    else if u == "cancelar" then resetState st
    else if u == "ajuda" then st
    else if u == "atendente" then resetState st
    else processRest env st msgNorm msgLower
  | Option.none => processRest env st msgNorm msgLower

/-- The state reached from a fresh chat by a message sequence, each with
its own oracle answers. -/
def runFlow (msgs : List (FlowEnv × String)) : ConvState :=
  msgs.foldl (fun st p => processar p.1 st p.2) initState

/-- A concrete oracle for the counterexample run. -/
def flowEnvEx : FlowEnv :=
  ⟨"111@c.us", ⟨2024, 6, 12, 10, 0, 0⟩, ⟨2024, 6, 12⟩, fun _ => "x", fun _ _ => true,
    true, "AG-X", true, fun _ => Option.none⟩

/-- C9 counterexample: sending "agendar" twice from a fresh chat leaves
the conversation in stage selecionar_servicos with the stage stack
["menu", "selecionar_servicos"] — the stack CONTAINS the current stage,
refuting the claimed invariant (the second "agendar" is a textual trigger
handled from inside selecionar_servicos, and _push pushes the current
stage again). -/
theorem stage_stack_contains_stage :
    (runFlow [(flowEnvEx, "agendar"), (flowEnvEx, "agendar")]).etapa =
      "selecionar_servicos" ∧
    (runFlow [(flowEnvEx, "agendar"), (flowEnvEx, "agendar")]).etapa ∈
      (runFlow [(flowEnvEx, "agendar"), (flowEnvEx, "agendar")]).pilha := by
  constructor
  · decide
  · decide

/-- The weakened conversation-state invariant. -/
def stInv (st : ConvState) : Prop :=
  st.etapa ∈ declaredStates ∧ ∀ s ∈ st.pilha, s ∈ declaredStates

theorem stInv_init : stInv initState := by
  constructor
  · decide
  · intro s hs
    simp [initState] at hs

theorem stInv_ctx {st : ConvState} (h : stInv st) (c : Ctx) :
    stInv { st with ctx := c } := h

theorem stInv_reset (st : ConvState) : stInv (resetState st) := stInv_init

theorem stInv_goto {st : ConvState} (h : stInv st) {new : String}
    (hnew : new ∈ declaredStates) : stInv (gotoState st new) :=
  ⟨hnew, h.2⟩

theorem stInv_push {st : ConvState} (h : stInv st) {new : String}
    (hnew : new ∈ declaredStates) : stInv (pushState st new) := by
  refine ⟨hnew, ?_⟩
  intro s hs
  rcases List.mem_append.mp hs with hs | hs
  · exact h.2 s hs
  · rw [List.mem_singleton.mp hs]
    exact h.1

theorem stInv_back {st : ConvState} (h : stInv st) : stInv (backState st).1 := by
  rw [backState]
  cases hl : st.pilha.getLast? with
  | none => exact h
  | some prev =>
    have hne : st.pilha ≠ [] := by
      intro h0
      rw [h0] at hl
      simp at hl
    have hmem : prev ∈ st.pilha := by
      have hg := List.getLast?_eq_getLast st.pilha hne
      rw [hl] at hg
      have hpe := Option.some_injective _ hg
      rw [hpe]
      exact List.getLast_mem hne
    refine ⟨h.2 prev hmem, ?_⟩
    intro s hs
    exact h.2 s (List.dropLast_subset _ hs)

theorem stInv_handleMenuAction {st : ConvState} (h : stInv st) (env : FlowEnv)
    (escolha : String) : stInv (handleMenuAction env escolha st) := by
  rw [handleMenuAction]
  split_ifs
  · exact stInv_ctx (stInv_push h (by decide)) _
  · exact stInv_goto h (by decide)
  · exact stInv_goto (stInv_ctx h _) (by decide)
  · exact stInv_goto h (by decide)
  · exact h

theorem stInv_handleSelServ {st : ConvState} (h : stInv st) (msgLower : String) :
    stInv (handleSelServ st msgLower) := by
  rw [handleSelServ]
  by_cases h1 : (msgLower == "pronto" || msgLower == "finalizar" || msgLower == "ok") = true
  · rw [if_pos h1]
    by_cases h2 : st.ctx.servicos.isEmpty = true
    · rw [if_pos h2]
      exact h
    · rw [if_neg h2]
      exact stInv_goto h (by decide)
  · rw [if_neg h1]
    by_cases h3 : (msgLower == "limpar") = true
    · rw [if_pos h3]
      exact stInv_ctx h _
    · rw [if_neg h3]
      split
      · rename_i alvo heq
        by_cases hc : (removerIds alvo).isEmpty = true
        · rw [if_pos hc]
          exact h
        · rw [if_neg hc]
          exact stInv_ctx h _
      · by_cases hc : (parseServicosS msgLower).isEmpty = true
        · rw [if_pos hc]
          exact h
        · rw [if_neg hc]
          exact stInv_ctx h _

theorem stInv_handleNome {st : ConvState} (h : stInv st) (msgNorm : List Char) :
    stInv (handleNome st msgNorm) := by
  rw [handleNome]
  split_ifs
  all_goals first | exact h | exact stInv_goto (stInv_ctx h _) (by decide)

theorem stInv_handleInsta {st : ConvState} (h : stInv st) (msgNorm : List Char) :
    stInv (handleInsta st msgNorm) := by
  rw [handleInsta]
  split_ifs
  all_goals first | exact h | exact stInv_goto (stInv_ctx h _) (by decide)

theorem stInv_handleData {st : ConvState} (h : stInv st) (env : FlowEnv)
    (msgNorm : List Char) : stInv (handleData env st msgNorm) := by
  rw [handleData]
  cases parseDataL env.now (msgNorm.filter (fun c => c ≠ ' ')) with
  | none => exact h
  | some dt =>
    simp only
    split_ifs
    all_goals first | exact stInv_goto (stInv_ctx h _) (by decide) | exact stInv_ctx h _

theorem stInv_handleHorario {st : ConvState} (h : stInv st) (env : FlowEnv)
    (msgNorm : List Char) : stInv (handleHorario env st msgNorm) := by
  rw [handleHorario]
  split
  · exact h
  · split
    · exact h
    · split
      · exact stInv_reset _
      · split_ifs
        all_goals first | exact h | exact stInv_reset _

theorem stInv_handleVerData {st : ConvState} (h : stInv st) (env : FlowEnv)
    (msgNorm : List Char) : stInv (handleVerData env st msgNorm) := by
  rw [handleVerData]
  cases parseDataL env.now (msgNorm.filter (fun c => c ≠ ' ')) with
  | none => exact h
  | some dt => exact stInv_goto (stInv_ctx h _) (by decide)

theorem stInv_handleVerListar {st : ConvState} (h : stInv st) (env : FlowEnv)
    (msgNorm : List Char) (msgLower : String) :
    stInv (handleVerListar env st msgNorm msgLower) := by
  rw [handleVerListar]
  cases parseDataL env.now (msgNorm.filter (fun c => c ≠ ' ')) with
  | some dt => exact stInv_ctx h _
  | none =>
    simp only
    split_ifs
    all_goals first | exact stInv_ctx (stInv_push h (by decide)) _ | exact h

theorem stInv_stateDispatch {st : ConvState} (h : stInv st) (env : FlowEnv)
    (msgNorm : List Char) (msgLower : String) :
    stInv (stateDispatch env st msgNorm msgLower) := by
  rw [stateDispatch]
  split_ifs
  · exact stInv_goto h (by decide)
  · exact stInv_handleSelServ h msgLower
  · exact stInv_handleNome h msgNorm
  · exact stInv_handleInsta h msgNorm
  · exact stInv_handleData h env msgNorm
  · exact stInv_handleHorario h env msgNorm
  · exact stInv_handleVerData h env msgNorm
  · exact stInv_handleVerListar h env msgNorm msgLower
  · exact stInv_reset _

theorem stInv_processRest {st : ConvState} (h : stInv st) (env : FlowEnv)
    (msgNorm : List Char) (msgLower : String) :
    stInv (processRest env st msgNorm msgLower) := by
  rw [processRest]
  split_ifs
  · exact h
  · exact h
  · cases lookupS menuRouter msgLower with
    | some escolha => exact stInv_handleMenuAction h env escolha
    | none => exact stInv_stateDispatch h env msgNorm msgLower
  · cases lookupS menuRouter msgLower with
    | some escolha => exact stInv_handleMenuAction h env escolha
    | none => exact stInv_stateDispatch h env msgNorm msgLower
  · exact stInv_stateDispatch h env msgNorm msgLower

theorem stInv_processar {st : ConvState} (h : stInv st) (env : FlowEnv)
    (msg : String) : stInv (processar env st msg) := by
  rw [processar]
  cases isUniversal msg with
  | none => exact stInv_processRest h env _ _
  | some u =>
    simp only
    split_ifs
    · exact stInv_reset _
    · exact stInv_back h
    · exact stInv_reset _
    · exact h
    · exact stInv_reset _
    · exact stInv_processRest h env _ _

/-- C9 (amended): over every message sequence and every oracle behaviour,
the conversation stage reached from a fresh chat is one of the Flow
Engine's declared states and every stage-stack entry is also a declared
state.  The stack CAN however contain the current stage (see the
counterexample), so the claimed no-duplicate invariant is dropped. -/
theorem flow_stage_always_declared (msgs : List (FlowEnv × String)) :
    (runFlow msgs).etapa ∈ declaredStates ∧
    ∀ s ∈ (runFlow msgs).pilha, s ∈ declaredStates := by
  have hgen : ∀ (l : List (FlowEnv × String)) (st : ConvState), stInv st →
      stInv (l.foldl (fun st p => processar p.1 st p.2) st) := by
    intro l
    induction l with
    | nil =>
      intro st h
      exact h
    | cons p t IH =>
      intro st h
      rw [List.foldl_cons]
      exact IH _ (stInv_processar h p.1 p.2)
  have h2 := hgen msgs initState stInv_init
  rw [runFlow]
  exact h2

end WppBot
